import Mathlib

/-!
Verification of the crawl engine of the ai-webscraper backend.

This file gives a shallow embedding, in Lean 4, of the parts of the Python
source that the verified properties talk about:

* backend/app/services/crawler.py   (class Crawler: the frontier loop,
  URL normalization, nav scoring, link processing, the primary-page
  finalizer, the per-page issue generator),
* backend/app/services/nav_detector.py  (class NavDetector),
* backend/app/services/issue_detector.py (class IssueDetector and
  normalize_url_for_comparison),
* backend/app/core/domain_blacklist.py.

Strings are modelled as lists of Unicode code points (List Nat), so that
every definition is executable and concrete runs can be settled by decide.
Python's str.lower is modelled as ASCII lowering (the URLs involved in the
source's comparisons are ASCII).  The Python standard library functions
urllib.parse.urlparse / urljoin are modelled after CPython's
Lib/urllib/parse.py for the cases exercised here (scheme split with
scheme-character validation, authority split, fragment/query split, and the
params split applied by urlparse for schemes in uses_params); the
control-character sanitisation of recent CPython versions is not modelled,
none of the inputs here contain such characters.

Network fetches, HTML parsing (BeautifulSoup / SmartContentExtractor) and
the database are external collaborators; they enter the model as oracles: a
Site assigns to every URL a fetch outcome, a parsed document is the
function from CSS selectors to the href attributes it matches, and the
database tables are the lists of records the engine inserts.  Wall-clock
based behaviour (rate limiting, the max-runtime check and the periodic
existence check of the crawl row) is outside the model; the embedded loop
corresponds to a run in which neither the runtime budget nor an
out-of-band deletion interrupts the crawl.
-/


/-- Code-point strings: the model of Python str used throughout. -/
abbrev Str := List Nat

/-- Code points of a Lean string literal. -/
def chars (s : String) : Str := s.data.map Char.toNat

/-- Code point of a single character. -/
def ch (c : Char) : Nat := c.toNat

/-- ASCII lowering of one code point; model of Python str.lower for the
ASCII inputs the source compares. -/
def asciiLower (n : Nat) : Nat :=
  if 65 ≤ n ∧ n ≤ 90 then n + 32 else n

/-- ASCII lowering of a string. -/
def lowerStr (s : Str) : Str := s.map asciiLower

/-- Python s.startswith(pre). -/
def startsWithL (pre s : Str) : Prop := s.take pre.length = pre

instance (pre s : Str) : Decidable (startsWithL pre s) := by
  unfold startsWithL; infer_instance

/-- Python s.endswith(suf). -/
def endsWithL (suf s : Str) : Prop :=
  suf.length ≤ s.length ∧ s.drop (s.length - suf.length) = suf

instance (suf s : Str) : Decidable (endsWithL suf s) := by
  unfold endsWithL; infer_instance

/-- Does p hold of some suffix of the string (the scan behind re.search
and substring containment). -/
def anySuffix (p : Str → Bool) : Str → Bool
  | [] => p []
  | x :: xs => p (x :: xs) || anySuffix p xs

/-- Python (sub in s): contiguous substring containment, executable. -/
def containsB (needle hay : Str) : Bool :=
  anySuffix (fun s => needle.isPrefixOf s) hay

/-- Split at the first occurrence of code point c:
models Python s.split(c, 1) (second component empty when c is absent). -/
def splitFirst (c : Nat) (s : Str) : Str × Str :=
  (s.takeWhile (· ≠ c), s.drop ((s.takeWhile (· ≠ c)).length + 1))

/-- Python s.split(c) on a (possibly empty) string; always returns at least
one part. -/
def splitAll (c : Nat) : Str → List Str
  | [] => [[]]
  | x :: xs =>
    let r := splitAll c xs
    if x = c then [] :: r
    else
      match r with
      | h :: t => (x :: h) :: t
      | [] => [[x]]

/-- Python c.join(parts). -/
def joinWith (c : Nat) : List Str → Str
  | [] => []
  | [x] => x
  | x :: xs => x ++ c :: joinWith c xs

/-- The part of s after its last slash (the whole of s when there is no
slash), together with everything before it. -/
def splitAtLastSlash (s : Str) : Str × Str :=
  let seg := (s.reverse.takeWhile (· ≠ ch '/')).reverse
  (s.take (s.length - seg.length), seg)

/-! ## Model of CPython urllib.parse (Lib/urllib/parse.py) -/

/-- scheme_chars of urllib.parse: letters, digits and "+-."
(code points 43, 45, 46). -/
def isSchemeChar (n : Nat) : Prop :=
  (65 ≤ n ∧ n ≤ 90) ∨ (97 ≤ n ∧ n ≤ 122) ∨ (48 ≤ n ∧ n ≤ 57) ∨
    n = 43 ∨ n = 45 ∨ n = 46

instance (n : Nat) : Decidable (isSchemeChar n) := by
  unfold isSchemeChar; infer_instance

/-- An ASCII letter (url[0].isascii() and url[0].isalpha() in urlsplit). -/
def isAsciiAlpha (n : Nat) : Prop := (65 ≤ n ∧ n ≤ 90) ∨ (97 ≤ n ∧ n ≤ 122)

instance (n : Nat) : Decidable (isAsciiAlpha n) := by
  unfold isAsciiAlpha; infer_instance

/-- A valid scheme name: nonempty, starts with an ASCII letter, all
characters in scheme_chars. -/
def validSchemeName : Str → Prop
  | [] => False
  | c :: cs => isAsciiAlpha c ∧ ∀ x ∈ c :: cs, isSchemeChar x

instance : (s : Str) → Decidable (validSchemeName s)
  | [] => by unfold validSchemeName; infer_instance
  | _ :: _ => by unfold validSchemeName; infer_instance

/-- Scheme split of urlsplit: if the text before the first colon is a valid
scheme name, it is removed (lowercased) from the url. -/
def pySplitScheme (u : Str) : Str × Str :=
  let a := u.takeWhile (· ≠ ch ':')
  if a.length < u.length ∧ validSchemeName a then
    (lowerStr a, u.drop (a.length + 1))
  else ([], u)

/-- Model of _splitnetloc: the netloc runs up to the first of "/?#"
(code points 47, 63, 35). -/
def isNetlocEnd (n : Nat) : Prop := n = 47 ∨ n = 63 ∨ n = 35

instance (n : Nat) : Decidable (isNetlocEnd n) := by
  unfold isNetlocEnd; infer_instance

structure SplitResult where
  scheme : Str
  netloc : Str
  path : Str
  query : Str
  fragment : Str
deriving DecidableEq, Repr

/-- The _splitnetloc stage: on "//..." the netloc is everything up to the first
of "/?#"; otherwise there is no netloc. -/
def splitNetloc (r1 : Str) : Str × Str :=
  if r1.take 2 = [ch '/', ch '/'] then
    ((r1.drop 2).takeWhile (fun c => ¬ isNetlocEnd c),
     (r1.drop 2).dropWhile (fun c => ¬ isNetlocEnd c))
  else ([], r1)

/-- Fragment stage of urlsplit: split at the first hash, if any. -/
def splitFragment (r2 : Str) : Str × Str :=
  if (ch '#') ∈ r2 then splitFirst (ch '#') r2 else (r2, [])

/-- Query stage of urlsplit: split at the first question mark, if any. -/
def splitQuery (r3 : Str) : Str × Str :=
  if (ch '?') ∈ r3 then splitFirst (ch '?') r3 else (r3, [])

/-- Model of urllib.parse.urlsplit (allow_fragments=True): scheme split,
then netloc, then fragment, then query. -/
def pyUrlsplit (u : Str) : SplitResult :=
  ⟨(pySplitScheme u).1,
   (splitNetloc (pySplitScheme u).2).1,
   (splitQuery (splitFragment (splitNetloc (pySplitScheme u).2).2).1).1,
   (splitQuery (splitFragment (splitNetloc (pySplitScheme u).2).2).1).2,
   (splitFragment (splitNetloc (pySplitScheme u).2).2).2⟩

/-- uses_params of urllib.parse. -/
def usesParams : List Str :=
  [chars "", chars "ftp", chars "hdl", chars "prospero", chars "http",
   chars "imap", chars "https", chars "shttp", chars "rtsp", chars "rtspu",
   chars "sip", chars "sips", chars "mms", chars "sftp", chars "tel"]

/-- Model of _splitparams: split ";params" off the last path segment. -/
def pySplitparams (p : Str) : Str × Str :=
  let (before, seg) := splitAtLastSlash p
  if (ch ';') ∈ seg then
    let (a, b) := splitFirst (ch ';') seg
    (before ++ a, b)
  else (p, [])

structure ParseResult where
  scheme : Str
  netloc : Str
  path : Str
  params : Str
  query : Str
  fragment : Str
deriving DecidableEq, Repr

/-- The params stage of urlparse: applied only for schemes in uses_params
when the path contains a semicolon. -/
def paramsSplit (scheme path : Str) : Str × Str :=
  if scheme ∈ usesParams ∧ (ch ';') ∈ path then pySplitparams path
  else (path, [])

/-- Model of urllib.parse.urlparse. -/
def pyUrlparse (u : Str) : ParseResult :=
  ⟨(pyUrlsplit u).scheme, (pyUrlsplit u).netloc,
   (paramsSplit (pyUrlsplit u).scheme (pyUrlsplit u).path).1,
   (paramsSplit (pyUrlsplit u).scheme (pyUrlsplit u).path).2,
   (pyUrlsplit u).query, (pyUrlsplit u).fragment⟩

/-! ## Crawler._normalize_url (crawler.py lines 1384-1421) -/

namespace Crawler

/-- Tracking query parameters removed by _normalize_url. -/
def trackingParams : List Str :=
  [chars "utm_source", chars "utm_medium", chars "utm_campaign",
   chars "utm_term", chars "utm_content", chars "fbclid", chars "gclid"]

/-- Keep a query parameter: parameters of the form name=value are dropped
when the lowercased name is a tracking parameter; parameters without an
equals sign are kept.  Dropping is a filter because name=value split at the
first equals sign and rejoined is the original text. -/
def keepParam (p : Str) : Prop :=
  (ch '=') ∈ p → lowerStr (p.takeWhile (· ≠ ch '=')) ∉ trackingParams

instance (p : Str) : Decidable (keepParam p) := by
  unfold keepParam; infer_instance

/-- netloc.rsplit(':', 1)[0]: everything before the last colon. -/
def dropLastPort (n : Str) : Str :=
  if (ch ':') ∈ n then
    n.take (n.length - ((n.reverse.takeWhile (· ≠ ch ':')).length + 1))
  else n

/-- path[:-1] when the path ends with a slash (_normalize_url). -/
def stripSlash (p : Str) : Str :=
  if endsWithL [ch '/'] p then p.dropLast else p

/-- Trailing-slash handling of _normalize_url: strip one trailing slash,
then replace an empty path by "/". -/
def fixPath (p : Str) : Str :=
  if stripSlash p = [] then [ch '/'] else stripSlash p

/-- The query filter of _normalize_url (only applied to nonempty query). -/
def filterQuery (q : Str) : Str :=
  joinWith (ch '&') ((splitAll (ch '&') q).filter (fun p => keepParam p))

/-- The default-port test of _normalize_url, on the already-lowercased
netloc. -/
def portCond (scheme netloc : Str) : Prop :=
  (scheme = chars "http" ∧ endsWithL (chars ":80") netloc) ∨
  (scheme = chars "https" ∧ endsWithL (chars ":443") netloc)

instance (scheme netloc : Str) : Decidable (portCond scheme netloc) := by
  unfold portCond; infer_instance

/-- The netloc produced by _normalize_url: lowercase, default port
stripped. -/
def normNetloc (url : Str) : Str :=
  if portCond (pyUrlparse url).scheme (lowerStr (pyUrlparse url).netloc) then
    dropLastPort (lowerStr (pyUrlparse url).netloc)
  else lowerStr (pyUrlparse url).netloc

/-- The path produced by _normalize_url. -/
def normPath (url : Str) : Str := fixPath (lowerStr (pyUrlparse url).path)

/-- The query produced by _normalize_url: tracking parameters removed
(empty queries are left alone). -/
def normQuery (url : Str) : Str :=
  if (pyUrlparse url).query ≠ [] then filterQuery (pyUrlparse url).query
  else (pyUrlparse url).query

/-- Reassembly of _normalize_url:
scheme "://" netloc path ("?" query when the query is nonempty). -/
def buildNorm (s n p q : Str) : Str :=
  s ++ [ch ':', ch '/', ch '/'] ++ n ++ p ++
    (if q ≠ [] then ch '?' :: q else [])

/-- Model of Crawler._normalize_url. -/
def normalize_url (url : Str) : Str :=
  buildNorm (pyUrlparse url).scheme (normNetloc url) (normPath url)
    (normQuery url)
end Crawler


/-! ## Model of urllib.parse.urljoin -/

/-- Scheme split with a default scheme (the two-argument urlsplit used by
urljoin). -/
def pySplitSchemeD (dflt u : Str) : Str × Str :=
  let a := u.takeWhile (· ≠ ch ':')
  if a.length < u.length ∧ validSchemeName a then
    (lowerStr a, u.drop (a.length + 1))
  else (dflt, u)

/-- urlsplit with a default scheme. -/
def pyUrlsplitD (dflt u : Str) : SplitResult :=
  ⟨(pySplitSchemeD dflt u).1,
   (splitNetloc (pySplitSchemeD dflt u).2).1,
   (splitQuery (splitFragment (splitNetloc (pySplitSchemeD dflt u).2).2).1).1,
   (splitQuery (splitFragment (splitNetloc (pySplitSchemeD dflt u).2).2).1).2,
   (splitFragment (splitNetloc (pySplitSchemeD dflt u).2).2).2⟩

/-- urlparse with a default scheme. -/
def pyUrlparseD (dflt u : Str) : ParseResult :=
  ⟨(pyUrlsplitD dflt u).scheme, (pyUrlsplitD dflt u).netloc,
   (paramsSplit (pyUrlsplitD dflt u).scheme (pyUrlsplitD dflt u).path).1,
   (paramsSplit (pyUrlsplitD dflt u).scheme (pyUrlsplitD dflt u).path).2,
   (pyUrlsplitD dflt u).query, (pyUrlsplitD dflt u).fragment⟩

/-- uses_relative of urllib.parse. -/
def usesRelative : List Str :=
  [chars "", chars "ftp", chars "http", chars "gopher", chars "nntp",
   chars "imap", chars "wais", chars "file", chars "https", chars "shttp",
   chars "mms", chars "prospero", chars "rtsp", chars "rtspu", chars "sftp",
   chars "svn", chars "svn+ssh", chars "ws", chars "wss"]

/-- uses_netloc of urllib.parse. -/
def usesNetloc : List Str :=
  [chars "", chars "ftp", chars "http", chars "gopher", chars "nntp",
   chars "telnet", chars "imap", chars "wais", chars "file", chars "mms",
   chars "https", chars "shttp", chars "snews", chars "prospero",
   chars "rtsp", chars "rtspu", chars "rsync", chars "svn",
   chars "svn+ssh", chars "sftp", chars "nfs", chars "git",
   chars "git+ssh", chars "ws", chars "wss"]

/-- urlunsplit followed by the params insertion of urlunparse. -/
def pyUrlunparse (r : ParseResult) : Str :=
  let u0 := if r.params ≠ [] then r.path ++ ch ';' :: r.params else r.path
  let u1 :=
    if r.netloc ≠ [] ∨
       (r.scheme ≠ [] ∧ r.scheme ∈ usesNetloc ∧ u0.take 2 ≠ [ch '/', ch '/']) then
      (ch '/' :: ch '/' :: r.netloc) ++
        (if u0 ≠ [] ∧ ¬ startsWithL [ch '/'] u0 then ch '/' :: u0 else u0)
    else u0
  let u2 := if r.scheme ≠ [] then r.scheme ++ ch ':' :: u1 else u1
  let u3 := if r.query ≠ [] then u2 ++ ch '?' :: r.query else u2
  if r.fragment ≠ [] then u3 ++ ch '#' :: r.fragment else u3

/-- base_parts of urljoin: the base path split on "/", with a non-empty
final segment (a file name) removed. -/
def basePartsOf (bpath : Str) : List Str :=
  let parts := splitAll (ch '/') bpath
  if parts.getLast? ≠ some [] then parts.dropLast else parts

/-- segments[1:-1] = filter(None, segments[1:-1]) of urljoin. -/
def filterMiddle (segs : List Str) : List Str :=
  match segs with
  | [] => []
  | [x] => [x]
  | x :: rest =>
    x :: ((rest.dropLast.filter (fun s => s ≠ [])) ++ rest.getLast?.toList)

/-- The ".." / "." resolution loop of urljoin. -/
def resolveSegments (segs : List Str) : List Str :=
  let resolved := segs.foldl
    (fun acc seg =>
      if seg = chars ".." then acc.dropLast
      else if seg = chars "." then acc
      else acc ++ [seg]) []
  if segs.getLast? = some (chars "..") ∨ segs.getLast? = some (chars ".") then
    resolved ++ [[]]
  else resolved

/-- Model of urllib.parse.urljoin. -/
def pyUrljoin (base url : Str) : Str :=
  if base = [] then url
  else if url = [] then base
  else
    let b := pyUrlparseD [] base
    let r := pyUrlparseD b.scheme url
    if r.scheme ≠ b.scheme ∨ r.scheme ∉ usesRelative then url
    else if r.scheme ∈ usesNetloc ∧ r.netloc ≠ [] then
      pyUrlunparse ⟨r.scheme, r.netloc, r.path, r.params, r.query, r.fragment⟩
    else
      let netloc := if r.scheme ∈ usesNetloc then b.netloc else r.netloc
      if r.path = [] ∧ r.params = [] then
        pyUrlunparse ⟨r.scheme, netloc, b.path, b.params,
          (if r.query = [] then b.query else r.query), r.fragment⟩
      else
        let segments :=
          if startsWithL [ch '/'] r.path then splitAll (ch '/') r.path
          else filterMiddle (basePartsOf b.path ++ splitAll (ch '/') r.path)
        let resolved := resolveSegments segments
        pyUrlunparse ⟨r.scheme, netloc,
          (if joinWith (ch '/') resolved = [] then [ch '/']
           else joinWith (ch '/') resolved),
          r.params, r.query, r.fragment⟩

/-! ## Pattern matchers for the regular expressions of the source

Each Python regular expression used by nav_detector.py and crawler.py is
translated to an executable matcher with the same search semantics on the
strings it is applied to. -/

/-- An ASCII digit. -/
def isDigitCp (n : Nat) : Bool := decide (48 ≤ n ∧ n ≤ 57)

/-- A lowercase ASCII letter. -/
def isLowerAz (n : Nat) : Bool := decide (97 ≤ n ∧ n ≤ 122)

/-- Matches of r"/\d4/\d2/" at the start of the string. -/
def dateAt : Str → Bool
  | a :: b :: c :: d :: e :: f :: g :: h :: i :: _ =>
    decide (a = ch '/') && isDigitCp b && isDigitCp c && isDigitCp d &&
    isDigitCp e && decide (f = ch '/') && isDigitCp g && isDigitCp h &&
    decide (i = ch '/')
  | _ => false

/-- re.search of the date-archive pattern r"/\d4/\d2/". -/
def hasDatePath (l : Str) : Bool := anySuffix dateAt l

/-- Matches of r"/page/\d+" at the start of the string. -/
def pageNumAt (l : Str) : Bool :=
  (chars "/page/").isPrefixOf l &&
    (match l.drop 6 with
     | d :: _ => isDigitCp d
     | [] => false)

/-- re.search of the pagination pattern r"/page/\d+". -/
def hasPageNum (l : Str) : Bool := anySuffix pageNumAt l

/-- Matches of needle followed by at least one non-newline character
(needle ++ ".+") at the start of the string. -/
def dotPlusAt (needle : Str) (l : Str) : Bool :=
  needle.isPrefixOf l &&
    (match l.drop needle.length with
     | d :: _ => decide (d ≠ 10)
     | [] => false)

/-- re.search of needle ++ r".+". -/
def hasDotPlus (needle : Str) (l : Str) : Bool := anySuffix (dotPlusAt needle) l

/-! ## Model of nav_detector.py (class NavDetector) -/

namespace NavDetector

/-- The (selector, weight) scoring rules of NavDetector.SELECTORS, in
source order. -/
def SELECTORS : List (Str × Int) :=
  [(chars "nav a", 10),
   (chars "[role=navigation] a", 10),
   (chars "header a", 8),
   (chars ".header a", 8),
   (chars ".navbar a", 9),
   (chars ".nav a", 9),
   (chars ".menu a", 8),
   (chars ".main-menu a", 9),
   (chars ".main-nav a", 9),
   (chars ".primary-nav a", 9),
   (chars ".site-nav a", 9),
   (chars ".top-nav a", 8),
   (chars ".navigation a", 8),
   (chars ".sidebar a", 6),
   (chars ".side-nav a", 6),
   (chars "aside nav a", 6),
   (chars "footer a", 5),
   (chars ".footer a", 5),
   (chars ".breadcrumb a", 7),
   (chars ".breadcrumbs a", 7),
   (chars "[aria-label=breadcrumb] a", 7)]

/-- NavDetector._normalize_url: resolve against the base, drop the
fragment, drop one trailing slash except at the root; mailto/tel/
javascript/fragment-only links give none. -/
def normalize_href (baseUrl href : Str) : Option Str :=
  if href = [] then none
  else if startsWithL (chars "mailto:") href ∨ startsWithL (chars "tel:") href ∨
      startsWithL (chars "javascript:") href ∨ startsWithL (chars "#") href then
    none
  else
    let parsed := pyUrlparse (pyUrljoin baseUrl href)
    let normalized := parsed.scheme ++ [ch ':', ch '/', ch '/'] ++
      parsed.netloc ++ parsed.path
    if endsWithL [ch '/'] normalized ∧ parsed.path ≠ [ch '/'] then
      some normalized.dropLast
    else some normalized

/-- NavDetector._should_exclude: case-insensitive re.search of the
EXCLUDE_PATTERNS over the full URL. -/
def should_exclude (url : Str) : Bool :=
  let lu := lowerStr url
  containsB (chars "/tag/") lu || containsB (chars "/tags/") lu ||
  containsB (chars "/category/") lu || containsB (chars "/author/") lu ||
  hasPageNum lu || hasDatePath lu ||
  containsB (chars "?") lu || containsB (chars "#") lu ||
  containsB (chars "mailto:") lu || containsB (chars "tel:") lu ||
  containsB (chars "javascript:") lu

/-- NavDetector._is_primary_page_pattern: re.match of the
PRIMARY_PAGE_PATTERNS against the lowercased path of the URL. -/
def is_primary_page_pattern (url : Str) : Bool :=
  let path := lowerStr (pyUrlparse url).path
  decide (path = chars "/") ||
  (chars "/about").isPrefixOf path || (chars "/contact").isPrefixOf path ||
  (chars "/services").isPrefixOf path || (chars "/products").isPrefixOf path ||
  (chars "/pricing").isPrefixOf path || (chars "/features").isPrefixOf path ||
  (chars "/solutions").isPrefixOf path ||
  decide (path = chars "/blog") || decide (path = chars "/news") ||
  (chars "/team").isPrefixOf path || (chars "/careers").isPrefixOf path ||
  (chars "/faq").isPrefixOf path || (chars "/help").isPrefixOf path ||
  (chars "/support").isPrefixOf path ||
  decide (path = chars "/docs") || decide (path = chars "/documentation")

/-- NavDetector._is_internal_link. -/
def is_internal_link (baseDomain url : Str) : Bool :=
  decide ((pyUrlparse url).netloc = baseDomain ∨ (pyUrlparse url).netloc = [])

/-- A parsed HTML document, as the oracle BeautifulSoup provides to
NavDetector: for each CSS selector, the list of href attribute values of
the anchors it matches, in document order. -/
structure NavDoc where
  select : Str → List Str

/-- Python-dict assignment on an insertion-ordered association list:
updating an existing key keeps its position, a new key is appended. -/
def dictSet (m : List (Str × Int)) (k : Str) (v : Int) : List (Str × Int) :=
  match m with
  | [] => [(k, v)]
  | (k', v') :: t => if k' = k then (k', v) :: t else (k', v') :: dictSet t k v

/-- Python dict.get(k, 0). -/
def dictGet (m : List (Str × Int)) (k : Str) : Int :=
  match m with
  | [] => 0
  | (k', v') :: t => if k' = k then v' else dictGet t k

/-- The per-anchor body of a selector pass of extract_nav_links: the href
is normalized, kept when internal and not excluded, and its score is
accumulated into the map. -/
def selStep (baseUrl baseDomain : Str) (sel : Str × Int)
    (acc : List (Str × Int)) (href : Str) : List (Str × Int) :=
  if href = [] then acc
  else
    match normalize_href baseUrl href with
    | none => acc
    | some full =>
      if is_internal_link baseDomain full then
        if should_exclude full then acc
        else dictSet acc full (dictGet acc full + sel.2)
      else acc

/-- One selector pass of extract_nav_links over all anchors the selector
matches, in document order. -/
def processSelector (baseUrl baseDomain : Str) (doc : NavDoc)
    (m : List (Str × Int)) (sel : Str × Int) : List (Str × Int) :=
  (doc.select sel.1).foldl (selStep baseUrl baseDomain sel) m

/-- The +3 bonus pass for primary-page URL patterns (iterating the keys in
insertion order, in place). -/
def bonusPass (m : List (Str × Int)) : List (Str × Int) :=
  m.map (fun kv => if is_primary_page_pattern kv.1 then (kv.1, kv.2 + 3) else kv)

/-- Stable insertion into a list sorted by descending score (ties keep
earlier entries first): the model of Python sorted(..., reverse=True). -/
def insertDesc (x : Str × Int) : List (Str × Int) → List (Str × Int)
  | [] => [x]
  | y :: ys => if y.2 ≥ x.2 then y :: insertDesc x ys else x :: y :: ys

/-- Stable sort by descending score. -/
def sortDesc (l : List (Str × Int)) : List (Str × Int) :=
  l.foldl (fun acc x => insertDesc x acc) []

/-- The result of extract_nav_links (the nav_structure context map, which
the crawler never reads, is omitted). -/
structure NavResult where
  primary_nav : List Str
  secondary_nav : List Str
  all_detected : List (Str × Int)
  total_nav_links : Nat
deriving DecidableEq, Repr

/-- Model of NavDetector.extract_nav_links. -/
def extract_nav_links (baseUrl : Str) (doc : NavDoc) : NavResult :=
  let baseDomain := (pyUrlparse baseUrl).netloc
  let scored := SELECTORS.foldl (processSelector baseUrl baseDomain doc) []
  let scored2 := bonusPass scored
  let sorted := sortDesc scored2
  { primary_nav := (sorted.filter (fun kv => kv.2 ≥ 8)).map (·.1)
    secondary_nav :=
      (sorted.filter (fun kv => 5 ≤ kv.2 ∧ kv.2 < 8)).map (·.1)
    all_detected := sorted
    total_nav_links := sorted.length }

/-- An href that the structural pass credits to the URL u: nonempty,
normalizing to u, internal, not excluded. -/
def creditsTo (baseUrl baseDomain u : Str) (href : Str) : Bool :=
  decide (href ≠ []) && decide (normalize_href baseUrl href = some u) &&
  is_internal_link baseDomain u && ! should_exclude u

/-- The total score one selector rule contributes to the URL u: its weight
times the number of its matched hrefs that normalize to u and pass the
filters. -/
def selectorContribution (baseUrl baseDomain : Str) (doc : NavDoc) (u : Str)
    (sel : Str × Int) : Int :=
  sel.2 * ((doc.select sel.1).countP (creditsTo baseUrl baseDomain u))
end NavDetector


/-! ## Model of app/core/domain_blacklist.py -/

namespace DomainBlacklist

/-- DOMAIN_BLACKLIST: the union of the static category sets of
domain_blacklist.py (CUSTOM_BLACKLIST is empty at module load). -/
def DOMAIN_BLACKLIST : List Str :=
  [chars "facebook.com", chars "fb.com", chars "twitter.com", chars "x.com",
   chars "instagram.com", chars "linkedin.com", chars "youtube.com",
   chars "youtu.be", chars "tiktok.com", chars "pinterest.com",
   chars "snapchat.com", chars "reddit.com", chars "tumblr.com",
   chars "whatsapp.com", chars "telegram.org", chars "discord.com",
   chars "twitch.tv", chars "vimeo.com", chars "flickr.com",
   chars "google-analytics.com", chars "googletagmanager.com",
   chars "doubleclick.net", chars "facebook.net",
   chars "analytics.google.com", chars "facebook.com/tr",
   chars "connect.facebook.net", chars "pixel.facebook.com",
   chars "amplitude.com", chars "segment.com", chars "segment.io",
   chars "hotjar.com", chars "fullstory.com", chars "mixpanel.com",
   chars "quantcast.com", chars "scorecardresearch.com", chars "chartbeat.com",
   chars "googlesyndication.com", chars "googleadservices.com",
   chars "adroll.com", chars "advertising.com", chars "adsense.google.com",
   chars "ads.google.com", chars "taboola.com", chars "outbrain.com",
   chars "criteo.com", chars "adform.com", chars "openx.net",
   chars "rubiconproject.com", chars "pubmatic.com",
   chars "cloudflare.com", chars "cloudfront.net", chars "akamai.net",
   chars "fastly.net", chars "jsdelivr.net", chars "unpkg.com",
   chars "cdnjs.cloudflare.com", chars "fonts.googleapis.com",
   chars "fonts.gstatic.com",
   chars "accounts.google.com", chars "login.microsoftonline.com",
   chars "id.apple.com", chars "auth.amazon.com", chars "github.com/login",
   chars "gitlab.com/users/sign_in",
   chars "google.com/search", chars "bing.com/search",
   chars "yahoo.com/search", chars "duckduckgo.com", chars "baidu.com",
   chars "yandex.com", chars "ask.com",
   chars "amazon.com", chars "ebay.com", chars "alibaba.com",
   chars "aliexpress.com", chars "walmart.com", chars "target.com",
   chars "shopify.com",
   chars "drive.google.com", chars "dropbox.com", chars "onedrive.live.com",
   chars "box.com", chars "mega.nz", chars "mediafire.com",
   chars "wetransfer.com",
   chars "pornhub.com", chars "xvideos.com", chars "xnxx.com",
   chars "redtube.com", chars "youporn.com", chars "xhamster.com",
   chars "tube8.com", chars "spankbang.com", chars "txxx.com",
   chars "eporner.com", chars "hqporner.com", chars "tnaflix.com",
   chars "drtuber.com", chars "keezmovies.com", chars "porntrex.com",
   chars "4tube.com", chars "faphouse.com", chars "onlyfans.com",
   chars "manyvids.com", chars "chaturbate.com", chars "stripchat.com",
   chars "cam4.com", chars "bongacams.com", chars "livejasmin.com",
   chars "myfreecams.com", chars "camsoda.com", chars "adultfriendfinder.com",
   chars "ashley-madison.com", chars "fling.com", chars "alt.com"]

/-- Model of is_domain_blacklisted: lowercase the host, strip "www.", then
exact match, suffix match or substring match against the blacklist. -/
def is_domain_blacklisted (url : Str) : Bool :=
  let domain0 := lowerStr (pyUrlparse url).netloc
  let domain :=
    if (chars "www.").isPrefixOf domain0 then domain0.drop 4 else domain0
  decide (domain ∈ DOMAIN_BLACKLIST) ||
    DOMAIN_BLACKLIST.any
      (fun b => decide (endsWithL b domain) || containsB b domain)
end DomainBlacklist


/-! ## Model of crawler.py: navigation scoring -/

namespace Crawler

/-- The main-page bonus patterns of _calculate_nav_score (re.match against
the lowercased path; "$"-anchored patterns are exact matches, the others
are prefixes; "careers?" makes the final s optional, so it is the prefix
"/career"). -/
def mainPagePattern (path : Str) : Bool :=
  decide (path = chars "/") ||
  (chars "/about").isPrefixOf path || (chars "/contact").isPrefixOf path ||
  (chars "/services").isPrefixOf path || (chars "/products").isPrefixOf path ||
  (chars "/pricing").isPrefixOf path || (chars "/features").isPrefixOf path ||
  (chars "/solutions").isPrefixOf path || (chars "/team").isPrefixOf path ||
  (chars "/career").isPrefixOf path || (chars "/case-stud").isPrefixOf path ||
  (chars "/portfolio").isPrefixOf path || decide (path = chars "/work") ||
  (chars "/clients").isPrefixOf path ||
  (chars "/testimonials").isPrefixOf path || (chars "/faq").isPrefixOf path ||
  decide (path = chars "/blog") || decide (path = chars "/news")

/-- The penalty patterns of _calculate_nav_score (re.search against the
lowercased path; "posts?/" and "articles?/" expand to the two literal
alternatives). -/
def penaltyPattern (path : Str) : Bool :=
  hasDotPlus (chars "/blog/") path || hasDotPlus (chars "/news/") path ||
  containsB (chars "/post/") path || containsB (chars "/posts/") path ||
  containsB (chars "/article/") path || containsB (chars "/articles/") path ||
  hasDatePath path ||
  containsB (chars "/tag/") path || containsB (chars "/tags/") path ||
  containsB (chars "/category/") path || containsB (chars "/author/") path ||
  hasPageNum path || containsB (chars "?") path

/-- The legal/utility penalty patterns of _calculate_nav_score. -/
def utilityPattern (path : Str) : Bool :=
  containsB (chars "/privacy") path || containsB (chars "/terms") path ||
  containsB (chars "/legal") path || containsB (chars "/cookie") path ||
  containsB (chars "/gdpr") path || containsB (chars "/imprint") path ||
  containsB (chars "/disclaimer") path || containsB (chars "/login") path ||
  containsB (chars "/signin") path || containsB (chars "/signup") path ||
  containsB (chars "/register") path || containsB (chars "/cart") path ||
  containsB (chars "/checkout") path || containsB (chars "/account") path

/-- Model of Crawler._calculate_nav_score: NavDetector score from the
homepage pass, plus the depth bonus, plus the main-page bonus, minus the
penalty patterns, floored at zero. -/
def calculate_nav_score (nav_scores : List (Str × Int)) (url : Str)
    (depth : Nat) : Int :=
  let score0 := NavDetector.dictGet nav_scores url
  let score1 := score0 +
    (if depth = 0 then 10 else if depth = 1 then 8 else if depth = 2 then 4
     else 0)
  let path := lowerStr (pyUrlparse url).path
  let score2 := score1 + (if mainPagePattern path then 5 else 0)
  let score3 := score2 - (if penaltyPattern path then 10 else 0)
  let score4 := score3 - (if utilityPattern path then 15 else 0)
  max 0 score4
end Crawler


/-! ## Model of crawler.py: data model and oracles

Wall-clock behaviour (rate limiting, max-runtime, periodic existence
checks), the headless renderer, blob storage of HTML snapshots, image
extraction and uuid generation are outside the model: fetching plus
rendering plus extraction collapse into a Site oracle, page ids are drawn
from a counter, and the html_snapshot_path / response_time columns are
stored as null. -/

namespace Crawler

/-- The crawl policy fields of the Crawl record that the engine reads. -/
structure CrawlConfig where
  id : Nat
  url : Str
  max_pages : Nat
  internal_depth : Nat
  external_depth : Nat
  follow_external_links : Bool
  max_external_links : Nat
  respect_robots_txt : Bool

/-- A frontier entry: (url, depth, source_url, nav_score, is_navigation),
the 5-tuple format of Crawler.url_queue. -/
structure QItem where
  url : Str
  depth : Nat
  source_url : Option Str
  nav_score : Int
  is_navig : Bool
deriving DecidableEq, Repr

/-- The fields of SmartContentExtractor.extract_all_data() that the
crawler reads (the extraction collaborator, as an oracle).  The technical
dict carries page_size_kb; it has no page_size_bytes key. -/
structure ExtractedData where
  full_text : Str
  word_count : Nat
  headings : List (Nat × Str)
  title : Option Str
  title_length : Nat
  meta_description : Option Str
  description_length : Nat
  has_viewport_meta : Bool
  has_lang_attribute : Bool
  images_has_alt : List Bool
  internal_links : Nat
  external_links : Nat
  page_size_kb : Nat
deriving DecidableEq, Repr

/-- A successful fetch (plus render and parse), as the network and
BeautifulSoup oracles hand it to the engine. -/
structure PageData where
  status_code : Nat
  final_url : Str
  content_type : Str
  anchors : List Str
  select : Str → List Str
  html_len : Nat
  content_length_header : Nat
  extracted : ExtractedData

/-- The outcome of crawling one URL: a response, or a raised exception
with its text. -/
inductive FetchOutcome where
  | ok (d : PageData)
  | exn (msg : Str)

/-- The external world of one crawl: the fetch oracle, the HEAD/GET
status-check oracle for links that are not followed, and the URLs the
robots.txt/sitemap pass discovers. -/
structure Site where
  fetch : Str → FetchOutcome
  link_check : Str → Nat × Option Str
  sitemap_urls : List Str

/-- A database value, for rows modelled as the literal dicts the source
inserts. -/
inductive DbVal where
  | s (v : Str)
  | n (v : Nat)
  | i (v : Int)
  | b (v : Bool)
  | sList (v : List Str)
  | null
  | obj
deriving DecidableEq, Repr

/-- A row of the pages table: the exact key set the source inserts. -/
abbrev PageRow := List (Str × DbVal)

/-- dict.get on a row. -/
def rowGet (row : PageRow) (k : Str) : Option DbVal :=
  match row with
  | [] => none
  | (k', v) :: t => if k' = k then some v else rowGet t k

/-- An issues-table record (ids and timestamps omitted). -/
structure IssueRec where
  page_id : Option Nat
  type : Str
  severity : Str
  message : Str
  context : Str
  pointer : Option Str
deriving DecidableEq, Repr

/-- A links-table record (ids, timestamps and the anchor-text/nofollow
attributes of the anchor element, which no modelled check reads, are
omitted). -/
structure LinkRec where
  source_page_id : Nat
  target_url : Str
  is_internal : Bool
  depth : Nat
  status_code : Option Nat
  error : Option Str
  nav_score : Int
  is_navig : Bool
deriving DecidableEq, Repr

/-- The SEO metadata the crawler builds for a page
(_create_enhanced_seo_metadata / the non-HTML fallback). -/
structure SeoMeta where
  title : Option Str
  title_length : Nat
  meta_description : Option Str
  meta_description_length : Nat
  h1 : Option Str
  h2 : List Str
  internal_links : Nat
  external_links : Nat
  image_alt_missing_count : Nat
deriving DecidableEq, Repr

/-- Model of Crawler._create_enhanced_seo_metadata. -/
def createEnhancedSeo (e : ExtractedData) : SeoMeta :=
  { title := e.title
    title_length := e.title_length
    meta_description := e.meta_description
    meta_description_length := e.description_length
    h1 := match e.headings with
          | (1, t) :: _ => some t
          | _ => none
    h2 := ((e.headings.filter (fun h => h.1 = 2)).map (·.2)).take 5
    internal_links := e.internal_links
    external_links := e.external_links
    image_alt_missing_count :=
      (e.images_has_alt.filter (fun a => a = false)).length }

/-- Python truthiness of an optional string (None and "" are falsy). -/
def strFalsy (v : Option Str) : Bool :=
  match v with
  | none => true
  | some t => decide (t = [])

/-- Model of Crawler._calculate_seo_score_from_metadata. -/
def calculate_seo_score_from_metadata (seo : SeoMeta) : Int :=
  let score : Int := 100
  let score := if strFalsy seo.title then score - 20
    else if seo.title_length > 60 then score - 10
    else if seo.title_length < 30 then score - 5
    else score
  let score := if strFalsy seo.meta_description then score - 15
    else if seo.meta_description_length > 160 then score - 5
    else if seo.meta_description_length < 120 then score - 5
    else score
  let score := if strFalsy seo.h1 then score - 15 else score
  let score := if seo.image_alt_missing_count > 0 then
      score - min 20 (seo.image_alt_missing_count * 2)
    else score
  max 0 score

/-- The page object the engine builds before persisting
(the fields _save_page_to_db reads). -/
structure PageObj where
  id : Nat
  url : Str
  status_code : Nat
  content_type : Option Str
  text_excerpt : Str
  word_count : Nat
  page_size_bytes : Nat
deriving DecidableEq, Repr

/-- Model of the page_data dict of _save_page_to_db: the exact column
set the source inserts into the pages table.  The page size is stored
under content_length; no page_size_bytes column is written. -/
def savePageRow (crawl_id : Nat) (page : PageObj) (seo : Option SeoMeta)
    (nav_score : Int) (depth : Nat) : PageRow :=
  let title := match seo with
    | some s => if strFalsy s.title then chars "No title found"
                else s.title.getD []
    | none => page.url
  let meta_description := match seo with
    | some s => s.meta_description
    | none => none
  let h1_tags : List Str := match seo with
    | some s => if strFalsy s.h1 then [] else [s.h1.getD []]
    | none => []
  let h2_tags : List Str := match seo with
    | some s => s.h2
    | none => []
  let internal_links := match seo with
    | some s => s.internal_links
    | none => 0
  let external_links := match seo with
    | some s => s.external_links
    | none => 0
  let seo_score : Int := match seo with
    | some s => calculate_seo_score_from_metadata s
    | none => 0
  [(chars "id", .n page.id),
   (chars "crawl_id", .n crawl_id),
   (chars "url", .s page.url),
   (chars "title", .s title),
   (chars "meta_description",
     match meta_description with | some d => .s d | none => .null),
   (chars "content_summary", .s page.text_excerpt),
   (chars "html_snapshot_path", .null),
   (chars "status_code", .n page.status_code),
   (chars "response_time", .null),
   (chars "content_type",
     match page.content_type with | some c => .s c | none => .null),
   (chars "content_length", .n page.page_size_bytes),
   (chars "h1_tags", .sList h1_tags),
   (chars "h2_tags", .sList h2_tags),
   (chars "internal_links", .n internal_links),
   (chars "external_links", .n external_links),
   (chars "images", .n 0),
   (chars "scripts", .n 0),
   (chars "stylesheets", .n 0),
   (chars "seo_score", .i seo_score),
   (chars "issues", .obj),
   (chars "nav_score", .i nav_score),
   (chars "is_primary", .b false),
   (chars "depth", .n depth)]

/-- Model of the error page_data dict persisted in the except branch of
_crawl_url: status_code 0, the truncated exception text as the content
summary. -/
def errorPageRow (crawl_id : Nat) (page_id : Nat) (url msg : Str) : PageRow :=
  [(chars "id", .n page_id),
   (chars "crawl_id", .n crawl_id),
   (chars "url", .s url),
   (chars "title", .s (chars "Error crawling " ++ url.take 50)),
   (chars "meta_description", .null),
   (chars "content_summary", .s (chars "Failed to crawl: " ++ msg.take 200)),
   (chars "status_code", .n 0),
   (chars "response_time", .null),
   (chars "content_type", .s (chars "error")),
   (chars "content_length", .n 0),
   (chars "h1_tags", .sList []),
   (chars "h2_tags", .sList []),
   (chars "internal_links", .n 0),
   (chars "external_links", .n 0),
   (chars "images", .n 0),
   (chars "scripts", .n 0),
   (chars "stylesheets", .n 0),
   (chars "seo_score", .i 0),
   (chars "issues", .obj)]

/-- Model of the Crawl Error issue persisted in the except branch of
_crawl_url. -/
def crawlErrorIssue (page_id : Nat) (url msg : Str) : IssueRec :=
  { page_id := some page_id
    type := chars "Crawl Error"
    severity := chars "high"
    message := chars "Failed to crawl URL: " ++ msg.take 500
    context := url
    pointer := none }

/-- Hierarchy-skip detection of _generate_issues_list: the scan stops at
the first heading whose level jumps by more than one over a positive
previous level. -/
def hierarchySkip : Nat → List (Nat × Str) → Bool
  | _, [] => false
  | prev, (level, _) :: t =>
    if level > prev + 1 ∧ prev > 0 then true else hierarchySkip level t

/-- Model of Crawler._generate_issues_list, the per-page audit issues
persisted during the crawl.  Message texts carry interpolated values in
the source; only their identifying prefix is modelled, the detection
conditions, types, severities and ordering are translated exactly. -/
def generateIssuesList (page_id : Nat) (url : Str) (e : ExtractedData) :
    List IssueRec :=
  -- extracted_data['technical'].get('page_size_bytes', 0): the extractor
  -- emits page_size_kb only, so this read is the default 0 and the
  -- in-crawl large-page check can never fire.
  let page_size_bytes : Nat := 0
  let mk : Str → Str → Str → IssueRec := fun ty sev msg =>
    { page_id := some page_id, type := ty, severity := sev, message := msg
      context := url, pointer := none }
  (if page_size_bytes > 3 * 1024 * 1024 then
    [mk (chars "Performance") (chars "high") (chars "Large page size")]
   else []) ++
  (if (e.images_has_alt.filter (fun a => a = false)).length ≠ 0 then
    [mk (chars "Accessibility") (chars "high") (chars "image(s) missing alt text")]
   else []) ++
  (if ¬ e.has_viewport_meta then
    [mk (chars "Accessibility") (chars "critical") (chars "Missing viewport meta tag")]
   else []) ++
  (if strFalsy e.title then
    [mk (chars "SEO") (chars "critical") (chars "Missing title tag")]
   else if e.title_length < 30 then
    [mk (chars "SEO") (chars "medium") (chars "Title too short")]
   else if e.title_length > 60 then
    [mk (chars "SEO") (chars "medium") (chars "Title too long")]
   else []) ++
  (if strFalsy e.meta_description then
    [mk (chars "SEO") (chars "high") (chars "Missing meta description")]
   else if e.description_length < 120 then
    [mk (chars "SEO") (chars "medium") (chars "Meta description too short")]
   else if e.description_length > 160 then
    [mk (chars "SEO") (chars "medium") (chars "Meta description too long")]
   else []) ++
  (if e.word_count > 0 ∧ e.word_count < 300 then
    [mk (chars "Content Quality") (chars "medium") (chars "Thin content")]
   else []) ++
  (if (e.headings.filter (fun h => h.1 = 1)).length = 0 then
    [mk (chars "SEO") (chars "high") (chars "Missing H1 heading")]
   else if (e.headings.filter (fun h => h.1 = 1)).length > 1 then
    [mk (chars "SEO") (chars "medium") (chars "Multiple H1 headings found")]
   else []) ++
  (if hierarchySkip 0 e.headings then
    [mk (chars "SEO") (chars "low") (chars "Heading hierarchy skip")]
   else []) ++
  (if ¬ e.has_lang_attribute then
    [mk (chars "Technical") (chars "medium") (chars "Missing lang attribute")]
   else [])

/-- The mutable state of one Crawler instance (plus the id counter that
stands in for uuid4). -/
structure CrawlState where
  url_queue : List QItem
  visited_urls : List Str
  pages : List PageRow
  seo_rows : List (Nat × SeoMeta)
  issues : List IssueRec
  links : List LinkRec
  pages_crawled : Nat
  external_domains_crawled : List Str
  nav_scores : List (Str × Int)
  primary_nav_urls : List Str
  nav_detection_done : Bool
  next_id : Nat

/-- The initial state of Crawler.__init__. -/
def initState : CrawlState :=
  { url_queue := [], visited_urls := [], pages := [], seo_rows := []
    issues := [], links := [], pages_crawled := 0
    external_domains_crawled := [], nav_scores := [], primary_nav_urls := []
    nav_detection_done := false, next_id := 0 }

/-- The slice of the state that _extract_and_process_links may write. -/
structure LinkPass where
  url_queue : List QItem
  links : List LinkRec
  external_domains_crawled : List Str
  nav_scores : List (Str × Int)
  primary_nav_urls : List Str
  nav_detection_done : Bool
deriving Repr

/-- The loop-local accumulators of _extract_and_process_links. -/
structure LinkAcc where
  queue : List QItem
  ext : List Str
  to_save : List LinkRec
  to_check : List LinkRec
  nav_queue : List QItem

/-- Python set.add on a membership list. -/
def setAdd (s : List Str) (x : Str) : List Str :=
  if x ∈ s then s else s ++ [x]

/-- The per-anchor body of _extract_and_process_links: skip fragment and
javascript links, resolve, classify internal/external, decide
should_follow (depth limits, blacklist, external-domain budget with its
set side effect), score, and route the link to the queue or the save /
status-check lists. -/
def linkStep (cfg : CrawlConfig) (source_page_id : Nat) (source_url : Str)
    (depth : Nat) (nav_scores : List (Str × Int)) (primary_nav : List Str)
    (acc : LinkAcc) (href : Str) : LinkAcc :=
  if startsWithL (chars "#") href ∨ startsWithL (chars "javascript:") href then
    acc
  else
    let absolute := pyUrljoin source_url href
    let host := (pyUrlparse absolute).netloc
    let is_internal := host = (pyUrlparse cfg.url).netloc
    let new_depth := depth + 1
    let followExt :=
      ¬ is_internal ∧ cfg.follow_external_links = true ∧
        new_depth ≤ cfg.external_depth
    let blacklisted := DomainBlacklist.is_domain_blacklisted absolute
    let budgetBlocked :=
      host ∉ acc.ext ∧ acc.ext.length ≥ cfg.max_external_links
    let should_follow :=
      if is_internal ∧ new_depth ≤ cfg.internal_depth then true
      else if followExt then
        if blacklisted then false
        else if budgetBlocked then false
        else true
      else false
    let ext' :=
      if followExt ∧ ¬ blacklisted ∧ ¬ budgetBlocked then setAdd acc.ext host
      else acc.ext
    let nav_score := calculate_nav_score nav_scores absolute new_depth
    let is_navig := absolute ∈ primary_nav ∨ nav_score ≥ 8
    let link_data : LinkRec :=
      { source_page_id := source_page_id, target_url := absolute
        is_internal := is_internal, depth := new_depth
        status_code := none, error := none
        nav_score := nav_score, is_navig := is_navig }
    if should_follow then
      let item : QItem :=
        ⟨absolute, new_depth, some source_url, nav_score, is_navig⟩
      if is_navig ∧ is_internal then
        { acc with ext := ext', nav_queue := acc.nav_queue ++ [item],
                   to_save := acc.to_save ++ [link_data] }
      else
        { acc with ext := ext', queue := acc.queue ++ [item],
                   to_save := acc.to_save ++ [link_data] }
    else
      if is_internal then
        { acc with ext := ext', to_check := acc.to_check ++ [link_data] }
      else
        { acc with ext := ext', to_save := acc.to_save ++ [link_data] }

/-- The status check of _check_and_save_link: HEAD (falling back to GET)
via the oracle, recorded on the link. -/
def checkLink (site : Site) (l : LinkRec) : LinkRec :=
  { l with status_code := some (site.link_check l.target_url).1
           error := (site.link_check l.target_url).2 }

/-- Model of Crawler._extract_and_process_links. -/
def extract_and_process_links (cfg : CrawlConfig) (site : Site)
    (d : PageData) (source_url : Str) (depth : Nat) (source_page_id : Nat)
    (lp : LinkPass) : LinkPass :=
  -- in-loop navigation detection on a depth-0 page when the homepage pass
  -- has not already run
  let lp :=
    if ¬ lp.nav_detection_done ∧ depth = 0 then
      let nav_data := NavDetector.extract_nav_links source_url ⟨d.select⟩
      { lp with
          nav_scores := nav_data.all_detected.foldl
            (fun m kv => NavDetector.dictSet m kv.1 kv.2) lp.nav_scores
          primary_nav_urls := nav_data.primary_nav
          nav_detection_done := true }
    else lp
  let acc := d.anchors.foldl
    (linkStep cfg source_page_id source_url depth lp.nav_scores
      lp.primary_nav_urls)
    ⟨lp.url_queue, lp.external_domains_crawled, [], [], []⟩
  { lp with
      url_queue := acc.nav_queue ++ acc.queue
      external_domains_crawled := acc.ext
      links := lp.links ++ acc.to_save ++ acc.to_check.map (checkLink site) }

/-- Containment of text/html in content_type.lower(). -/
def isHtmlContentType (ct : Str) : Bool :=
  containsB (chars "text/html") (lowerStr ct)

/-- content_type.split(";")[0] (the resource type shown for non-HTML
pages; the .strip() is a no-op on the oracle values modelled here). -/
def resourceTypeOf (ct : Str) : Str := (splitFirst (ch ';') ct).1

/-- The page object built for a non-HTML response (no parsing). -/
def nonHtmlPage (page_id : Nat) (url : Str) (d : PageData) : PageObj :=
  { id := page_id, url := url, status_code := d.status_code
    content_type := some d.content_type
    text_excerpt := chars "Non-HTML resource: " ++ resourceTypeOf d.content_type
    word_count := 0
    page_size_bytes := d.content_length_header }

/-- The minimal SEO metadata built for a non-HTML response (title from
the file name; unquote percent-decoding is not modelled). -/
def nonHtmlSeo (url : Str) (d : PageData) : SeoMeta :=
  let seg := (splitAtLastSlash (pyUrlparse url).path).2
  let filename := if seg = [] then url else seg
  { title := some (filename ++ chars " (" ++ resourceTypeOf d.content_type ++
      chars ")")
    title_length := filename.length
    meta_description :=
      some (chars "Non-HTML resource: " ++ resourceTypeOf d.content_type)
    meta_description_length := 0
    h1 := none, h2 := [], internal_links := 0, external_links := 0
    image_alt_missing_count := 0 }

/-- The page object built for an HTML response: the text excerpt is the
extracted full page text capped at 50000 characters. -/
def htmlPage (page_id : Nat) (url : Str) (d : PageData) : PageObj :=
  { id := page_id, url := url, status_code := d.status_code
    content_type := some d.content_type
    text_excerpt := d.extracted.full_text.take 50000
    word_count := d.extracted.word_count
    page_size_bytes := d.html_len }

/-- One iteration of the while loop of Crawler._crawl, applied to a state
whose queue is nonempty: pop, normalize, skip when visited, otherwise
mark visited and crawl the URL (persist the page and its child records,
or the synthetic error page and Crawl Error issue). -/
def crawlStep (cfg : CrawlConfig) (site : Site) (st : CrawlState) :
    CrawlState :=
  match st.url_queue with
  | [] => st
  | item :: rest =>
    let st := { st with url_queue := rest }
    let normalized := normalize_url item.url
    if normalized ∈ st.visited_urls then st
    else
      let st := { st with visited_urls := normalized :: st.visited_urls }
      match site.fetch item.url with
      | .exn msg =>
        -- the except branch of _crawl_url: error page + issue, no
        -- pages_crawled increment
        let pid := st.next_id
        { st with
            pages := st.pages ++ [errorPageRow cfg.id pid item.url msg]
            issues := st.issues ++ [crawlErrorIssue pid item.url msg]
            next_id := pid + 1 }
      | .ok d =>
        let pid := st.next_id
        let st := { st with next_id := pid + 1 }
        if ¬ isHtmlContentType d.content_type then
          -- non-HTML: minimal page, no link/image extraction, no audit
          let seo := nonHtmlSeo item.url d
          { st with
              pages := st.pages ++
                [savePageRow cfg.id (nonHtmlPage pid item.url d) (some seo)
                  item.nav_score item.depth]
              seo_rows := st.seo_rows ++ [(pid, seo)]
              pages_crawled := st.pages_crawled + 1 }
        else
          let seo := createEnhancedSeo d.extracted
          let st := { st with
              pages := st.pages ++
                [savePageRow cfg.id (htmlPage pid item.url d) (some seo)
                  item.nav_score item.depth]
              seo_rows := st.seo_rows ++ [(pid, seo)]
              issues := st.issues ++
                generateIssuesList pid item.url d.extracted }
          let st :=
            if d.status_code = 200 then
              let lp := extract_and_process_links cfg site d item.url
                item.depth pid
                ⟨st.url_queue, st.links, st.external_domains_crawled,
                 st.nav_scores, st.primary_nav_urls, st.nav_detection_done⟩
              { st with
                  url_queue := lp.url_queue
                  links := lp.links
                  external_domains_crawled := lp.external_domains_crawled
                  nav_scores := lp.nav_scores
                  primary_nav_urls := lp.primary_nav_urls
                  nav_detection_done := lp.nav_detection_done }
            else st
          { st with pages_crawled := st.pages_crawled + 1 }

/-- The while loop of Crawler._crawl, fuelled: it runs while the queue is
nonempty and pages_crawled < max_pages (the wall-clock runtime and
existence checks are outside the model). -/
def crawlLoop (cfg : CrawlConfig) (site : Site) :
    Nat → CrawlState → CrawlState
  | 0, st => st
  | fuel + 1, st =>
    if st.url_queue ≠ [] ∧ st.pages_crawled < cfg.max_pages then
      crawlLoop cfg site fuel (crawlStep cfg site st)
    else st

/-- Model of Crawler._detect_navigation_from_homepage: fetch the homepage
of the crawl's domain and, on a 200 HTML response, store the NavDetector
scores and primary-nav URLs; on any failure only nav_detection_done is
set. -/
def homepageOf (cfg : CrawlConfig) : Str :=
  (pyUrlparse cfg.url).scheme ++ [ch ':', ch '/', ch '/'] ++
    (pyUrlparse cfg.url).netloc ++ [ch '/']

def detect_navigation_from_homepage (cfg : CrawlConfig) (site : Site)
    (st : CrawlState) : CrawlState :=
  let homepage := homepageOf cfg
  match site.fetch homepage with
  | .exn _ => { st with nav_detection_done := true }
  | .ok d =>
    if d.status_code ≠ 200 then { st with nav_detection_done := true }
    else
      let nav_data := NavDetector.extract_nav_links homepage ⟨d.select⟩
      { st with
          nav_scores := nav_data.all_detected.foldl
            (fun m kv => NavDetector.dictSet m kv.1 kv.2) st.nav_scores
          primary_nav_urls := nav_data.primary_nav
          nav_detection_done := true }

/-- Model of Crawler._should_crawl_url (the sitemap URL filter). -/
def should_crawl_url (url : Str) : Bool :=
  let parsed := pyUrlparse url
  if decide (parsed.scheme ≠ chars "http") && decide (parsed.scheme ≠ chars "https") then
    false
  else
    let path := lowerStr parsed.path
    ! ([chars ".pdf", chars ".doc", chars ".docx", chars ".ppt",
        chars ".pptx", chars ".xls", chars ".xlsx", chars ".zip",
        chars ".rar", chars ".tar", chars ".gz", chars ".jpg",
        chars ".jpeg", chars ".png", chars ".gif", chars ".mp3",
        chars ".mp4", chars ".avi", chars ".mov", chars ".wmv",
        chars ".flv", chars ".css", chars ".js"].any
        (fun ext => decide (endsWithL ext path)))

/-- The sitemap discovery pass (robots.txt and sitemap fetching are the
collaborator's side; the discovered URLs enter the queue at depth 0 with
score 0). -/
def process_robots_and_sitemaps (site : Site) (st : CrawlState) :
    CrawlState :=
  { st with url_queue := st.url_queue ++
      ((site.sitemap_urls.filter (fun u => should_crawl_url u)).map
        (fun u => ⟨u, 0, none, 0, false⟩)) }

/-- Model of Crawler.start: homepage navigation detection, seeding of the
queue with the start URL (nav_score at least 10, always navigation),
optional sitemap discovery, then the crawl loop. -/
def start (cfg : CrawlConfig) (site : Site) (fuel : Nat) : CrawlState :=
  let st := initState
  let st := detect_navigation_from_homepage cfg site st
  let start_nav_score := calculate_nav_score st.nav_scores cfg.url 0
  let st := { st with url_queue := st.url_queue ++
      [⟨cfg.url, 0, none, max start_nav_score 10, true⟩] }
  let st := if cfg.respect_robots_txt then process_robots_and_sitemaps site st
    else st
  crawlLoop cfg site fuel st

/-- A benign extraction result used by the concrete sites below. -/
def plainExtract : ExtractedData :=
  { full_text := chars "hello world"
    word_count := 400
    headings := [(1, chars "Heading")]
    title := some (chars "A title of comfortable length here")
    title_length := 34
    meta_description := some (chars "A description")
    description_length := 130
    has_viewport_meta := true
    has_lang_attribute := true
    images_has_alt := []
    internal_links := 1
    external_links := 0
    page_size_kb := 1 }

/-- A 200 text/html response with the given anchors. -/
def htmlData (url : Str) (anchors : List Str) : PageData :=
  { status_code := 200, final_url := url
    content_type := chars "text/html", anchors := anchors
    select := fun _ => [], html_len := 1024, content_length_header := 0
    extracted := plainExtract }

/-- The concrete site of the C2 example: a homepage linking to 100
distinct internal pages, each of which loads fine with no links. -/
def siteC2 : Site :=
  { fetch := fun u =>
      if u = chars "http://s.com/" then
        .ok (htmlData u ((List.range 100).map
          (fun i => chars "/p" ++ chars (toString (i + 1)))))
      else if (chars "http://s.com/p").isPrefixOf u then
        .ok (htmlData u [])
      else .exn (chars "unreachable")
    link_check := fun _ => (200, none)
    sitemap_urls := [] }

/-- The C2 example crawl config: max_pages = 5. -/
def cfgC2 : CrawlConfig :=
  { id := 1, url := chars "http://s.com/", max_pages := 5
    internal_depth := 3, external_depth := 1
    follow_external_links := false, max_external_links := 10
    respect_robots_txt := false }

/-- The concrete site of the C4 example: a homepage linking to five
distinct external hosts, each of which loads fine with no links. -/
def siteC4 : Site :=
  { fetch := fun u =>
      if u = chars "http://m.com/" then
        .ok (htmlData u [chars "http://e1.com/", chars "http://e2.com/",
          chars "http://e3.com/", chars "http://e4.com/",
          chars "http://e5.com/"])
      else .ok (htmlData u [])
    link_check := fun _ => (200, none)
    sitemap_urls := [] }

/-- The C4 example crawl config: external links on, at most 2 external
domains. -/
def cfgC4 : CrawlConfig :=
  { id := 1, url := chars "http://m.com/", max_pages := 50
    internal_depth := 3, external_depth := 1
    follow_external_links := true, max_external_links := 2
    respect_robots_txt := false }

/-- The concrete site of the C5 example: a homepage linking to /a and
/b, where fetching /a raises and /b loads fine. -/
def siteC5 : Site :=
  { fetch := fun u =>
      if u = chars "http://s5.com/" then
        .ok (htmlData u [chars "/a", chars "/b"])
      else if u = chars "http://s5.com/a" then
        .exn (chars "boom")
      else if u = chars "http://s5.com/b" then
        .ok (htmlData u [])
      else .exn (chars "unreachable")
    link_check := fun _ => (200, none)
    sitemap_urls := [] }

/-- The C5 example crawl config. -/
def cfgC5 : CrawlConfig :=
  { id := 1, url := chars "http://s5.com/", max_pages := 50
    internal_depth := 3, external_depth := 1
    follow_external_links := false, max_external_links := 10
    respect_robots_txt := false }

/-- The url column of a persisted page row. -/
def rowUrl (row : PageRow) : Str :=
  match rowGet row (chars "url") with
  | some (.s u) => u
  | _ => []

/-- The C1 invariant: the normalized URLs of the persisted pages are
pairwise distinct, and every one of them is in the visited set. -/
def PagesInv (st : CrawlState) : Prop :=
  (st.pages.map (fun r => normalize_url (rowUrl r))).Nodup ∧
  ∀ r ∈ st.pages, normalize_url (rowUrl r) ∈ st.visited_urls
end Crawler

namespace IssueDetector

/-- Python path.rstrip of the slash character: every trailing slash is
removed. -/
def rstripSlashes (s : Str) : Str :=
  (s.reverse.dropWhile (fun c => c = ch '/')).reverse

/-- Model of issue_detector.normalize_url_for_comparison: lowercase the
domain, strip a leading www., strip trailing slashes from a non-root
path, and rebuild scheme://domain+path (query and fragment dropped). -/
def normalize_url_for_comparison (url : Str) : Str :=
  if url = [] then url
  else
    let parsed := pyUrlparse url
    let domain := lowerStr parsed.netloc
    let domain := if startsWithL (chars "www.") domain then domain.drop 4
      else domain
    let path := if parsed.path ≠ [ch '/'] ∧ endsWithL [ch '/'] parsed.path
      then rstripSlashes parsed.path
      else parsed.path
    parsed.scheme ++ chars "://" ++ domain ++ path

/-- ASCII whitespace for Python str.strip. -/
def isWs (n : Nat) : Bool :=
  n = 32 || n = 9 || n = 10 || n = 13 || n = 11 || n = 12

/-- Python s.strip() on ASCII whitespace. -/
def stripWs (s : Str) : Str :=
  ((s.dropWhile isWs).reverse.dropWhile isWs).reverse

/-- The fields of a seo_metadata row that _detect_duplicate_titles
reads. -/
structure SeoMetaRow where
  title : Option Str
  page_url : Str

/-- dict get on the title map. -/
def tmGet (m : List (Str × List (Str × Str))) (k : Str) :
    Option (List (Str × Str)) :=
  match m with
  | [] => none
  | (k2, v) :: t => if k2 = k then some v else tmGet t k

/-- Insertion-ordered dict update on the title map. -/
def tmSet (m : List (Str × List (Str × Str))) (k : Str)
    (v : List (Str × Str)) : List (Str × List (Str × Str)) :=
  match m with
  | [] => [(k, v)]
  | (k2, v2) :: t => if k2 = k then (k2, v) :: t else (k2, v2) :: tmSet t k v

/-- One iteration of the grouping loop of _detect_duplicate_titles:
skip missing or blank titles, then record the page under its title
keyed by the normalized URL, keeping the first original URL seen for
each normalized form. -/
def metaStep (m : List (Str × List (Str × Str))) (meta : SeoMetaRow) :
    List (Str × List (Str × Str)) :=
  match meta.title with
  | none => m
  | some t =>
    if stripWs t = [] then m
    else
      let inner := (tmGet m t).getD []
      let normalized := normalize_url_for_comparison meta.page_url
      if inner.any (fun kv => decide (kv.1 = normalized)) then tmSet m t inner
      else tmSet m t (inner ++ [(normalized, meta.page_url)])

/-- The title -> (normalized_url -> original_url) grouping dict. -/
def buildTitleMap (metas : List SeoMetaRow) :
    List (Str × List (Str × Str)) :=
  metas.foldl metaStep []

/-- Python sep.join(parts). -/
def joinStr (sep : Str) : List Str → Str
  | [] => []
  | [x] => x
  | x :: xs => x ++ sep ++ joinStr sep xs

/-- The duplicate-title issue record (39 is the apostrophe around the
interpolated title). -/
def dupTitleIssue (t : Str) (inner : List (Str × Str)) :
    Crawler.IssueRec :=
  { page_id := none
    type := chars "SEO - Duplicate Title Tag"
    severity := chars "high"
    message := chars "Title " ++ [39] ++ t ++ [39] ++ chars " is used on " ++
      chars (toString inner.length) ++
      chars " pages. Create unique, descriptive titles for each page to improve search rankings."
    context := joinStr (chars ", ") ((inner.map (fun kv => kv.2)).take 3) ++
      (if inner.length > 3 then chars "..." else [])
    pointer := some t }

/-- Model of IssueDetector._detect_duplicate_titles: group by title with
normalized-URL dedup, then one issue per title used on more than one
unique page. -/
def detect_duplicate_titles (metas : List SeoMetaRow) :
    List Crawler.IssueRec :=
  (buildTitleMap metas).foldl
    (fun acc kv =>
      if kv.2.length ≤ 1 then acc else acc ++ [dupTitleIssue kv.1 kv.2]) []

/-- The size test of _detect_large_pages: page.get("page_size_bytes")
must be truthy and above 3 MB. -/
def largePageB (page : Crawler.PageRow) : Bool :=
  match Crawler.rowGet page (chars "page_size_bytes") with
  | some (.n k) => decide (k ≠ 0) && decide (k > 3 * 1024 * 1024)
  | some (.i k) => decide (k ≠ 0) && decide (k > 3 * 1024 * 1024)
  | _ => false

/-- The large-page issue record (the source interpolates the size in MB
into the message; its identifying prefix is modelled). -/
def largePageIssue (page : Crawler.PageRow) : Crawler.IssueRec :=
  { page_id := match Crawler.rowGet page (chars "id") with
      | some (.n i) => some i
      | _ => none
    type := chars "Performance - Large Page Size"
    severity := chars "high"
    message := chars "Page size is "
    context := match Crawler.rowGet page (chars "url") with
      | some (.s u) => u
      | _ => chars "Unknown URL"
    pointer := none }

/-- Model of IssueDetector._detect_large_pages. -/
def detect_large_pages (pages : List Crawler.PageRow) :
    List Crawler.IssueRec :=
  (pages.filter largePageB).map largePageIssue
end IssueDetector


/-- A 4 MB page object, as the crawler builds it before persisting. -/
def Crawler.pageBig : Crawler.PageObj :=
  { id := 7, url := chars "http://x.com/big", status_code := 200
    content_type := some (chars "text/html")
    text_excerpt := chars "t", word_count := 100
    page_size_bytes := 4 * 1024 * 1024 }

namespace Crawler

/-- No persisted page row carries a page_size_bytes column. -/
def NoPsb (st : CrawlState) : Prop :=
  ∀ r ∈ st.pages, rowGet r (chars "page_size_bytes") = none
end Crawler


/-- A site whose every fetch raises. -/
def Crawler.siteFail : Crawler.Site :=
  { fetch := fun _ => .exn (chars "down")
    link_check := fun _ => (200, none)
    sitemap_urls := [] }

/-- Matches of r"/[a-z]2/[a-z]+/.+" at the start of the string: a
two-letter language segment, a further lowercase segment, then at least
one more character. -/
def langDeepAt (l : Str) : Bool :=
  match l with
  | a :: b :: c :: d :: rest =>
    decide (a = ch '/') && isLowerAz b && isLowerAz c && decide (d = ch '/') &&
    (let run := rest.takeWhile isLowerAz
     decide (run ≠ []) &&
     (match rest.drop run.length with
      | x :: y :: _ => decide (x = ch '/') && decide (y ≠ 10)
      | _ => false))
  | _ => false

/-- re.search of the locale-subpath pattern. -/
def hasLangDeep (l : Str) : Bool := anySuffix langDeepAt l

namespace Crawler

/-- The exclude_patterns scan of _finalize_primary_pages: any(re.search)
over the strict exclusion list, each pattern translated to a matcher
with the same search semantics. -/
def matchesExcl (s : Str) : Bool :=
  containsB (chars "/privacy") s || containsB (chars "/terms") s ||
  containsB (chars "/legal") s || containsB (chars "/cookie") s ||
  containsB (chars "/gdpr") s || containsB (chars "/imprint") s ||
  containsB (chars "/disclaimer") s || containsB (chars "/login") s ||
  containsB (chars "/signin") s || containsB (chars "/signup") s ||
  containsB (chars "/register") s || containsB (chars "/cart") s ||
  containsB (chars "/checkout") s || containsB (chars "/account") s ||
  containsB (chars "/404") s || containsB (chars "/error") s ||
  hasDotPlus (chars "/blog/") s || hasDotPlus (chars "/news/") s ||
  containsB (chars "/article/") s || containsB (chars "/post/") s ||
  hasDatePath s ||
  containsB (chars "/category/") s || containsB (chars "/tag/") s ||
  containsB (chars "/tags/") s || containsB (chars "/author/") s ||
  containsB (chars "/archive/") s ||
  hasPageNum s || containsB (chars "?page=") s || containsB (chars "?p=") s ||
  containsB (chars "/search") s || containsB (chars "?q=") s ||
  containsB (chars "?s=") s ||
  containsB (chars "/wp-content/") s || containsB (chars "/uploads/") s ||
  containsB (chars "/media/") s || containsB (chars "/assets/") s ||
  hasLangDeep s

/-- The columns of a pages row that _finalize_primary_pages selects. -/
structure FinRow where
  id : Nat
  url : Str
  nav_score : Int
  is_primary : Bool
  depth : Nat
deriving DecidableEq, Repr

/-- A main-page candidate dict. -/
structure Cand where
  id : Nat
  url : Str
  nav_score : Int
  depth : Nat
  is_homepage : Bool
deriving DecidableEq, Repr

/-- url.count of the slash character. -/
def countSlash (u : Str) : Nat := u.count (ch '/')

/-- The sort key comparison of _finalize_primary_pages: homepage first,
then nav_score descending, then slash count ascending. -/
def candLe (a b : Cand) : Bool :=
  if a.is_homepage ≠ b.is_homepage then a.is_homepage
  else if a.nav_score ≠ b.nav_score then decide (b.nav_score < a.nav_score)
  else decide (countSlash a.url ≤ countSlash b.url)

/-- Stable insertion for the Python sort. -/
def candInsert (x : Cand) : List Cand → List Cand
  | [] => [x]
  | y :: ys => if candLe x y then x :: y :: ys else y :: candInsert x ys

/-- Stable sort (Python list.sort) by the candidate key. -/
def candSort : List Cand → List Cand
  | [] => []
  | x :: xs => candInsert x (candSort xs)

/-- The candidate filter of _finalize_primary_pages: drop external
domains and excluded paths/queries, then keep the page when it is the
homepage, has nav_score at least 8, or the site is very small. -/
def candOf (start_domain : Str) (total : Nat) (p : FinRow) : Option Cand :=
  let parsed := pyUrlparse p.url
  let path := lowerStr parsed.path
  if parsed.netloc ≠ start_domain then none
  else if matchesExcl path then none
  else if decide (parsed.query ≠ []) &&
      matchesExcl (ch '?' :: parsed.query) then none
  else
    let is_homepage := decide ((path = [] ∨ path = [ch '/']) ∧
      parsed.query = [])
    if is_homepage || decide (p.nav_score ≥ 8) || decide (total ≤ 6) then
      some ⟨p.id, p.url, p.nav_score, p.depth, is_homepage⟩
    else none

/-- Model of Crawler._finalize_primary_pages on the selected rows: the
resulting is_primary column is id-membership in the top-15 sorted
candidates. -/
def finalize_primary_pages (start_url : Str) (pages : List FinRow) :
    List FinRow :=
  let total := pages.length
  let start_domain := (pyUrlparse start_url).netloc
  let cands := pages.filterMap (candOf start_domain total)
  let final := (candSort cands).take 15
  let ids := final.map (fun c => c.id)
  pages.map (fun p => { p with is_primary := decide (p.id ∈ ids) })
end Crawler


/-! ## Utility lemmas about code-point strings -/

theorem asciiLower_idem (n : Nat) : asciiLower (asciiLower n) = asciiLower n := by
  unfold asciiLower
  split
  · rename_i h
    rw [if_neg]
    omega
  · rfl

theorem lowerStr_idem (s : Str) : lowerStr (lowerStr s) = lowerStr s := by
  unfold lowerStr
  rw [List.map_map]
  exact List.map_congr_left (fun x _ => asciiLower_idem x)

/-- A code point below 65 is fixed by, and not produced by, ASCII lowering. -/
theorem asciiLower_eq_low {t : Nat} (ht : t < 65) (x : Nat) :
    asciiLower x = t ↔ x = t := by
  unfold asciiLower
  split
  · rename_i h
    constructor <;> intro he <;> omega
  · exact Iff.rfl

theorem mem_lowerStr_low {t : Nat} (ht : t < 65) (s : Str) :
    t ∈ lowerStr s ↔ t ∈ s := by
  unfold lowerStr
  rw [List.mem_map]
  constructor
  · rintro ⟨x, hx, he⟩
    rwa [(asciiLower_eq_low ht x).mp he] at hx
  · intro hx
    exact ⟨t, hx, (asciiLower_eq_low ht t).mpr rfl⟩

theorem takeWhile_append_all {p : Nat → Bool} :
    ∀ (a b : Str), (∀ x ∈ a, p x) → (a ++ b).takeWhile p = a ++ b.takeWhile p
  | [], b, _ => rfl
  | x :: xs, b, h => by
    have hx : p x := h x (List.mem_cons_self x xs)
    simp only [List.cons_append, List.takeWhile_cons, hx, if_true]
    rw [takeWhile_append_all xs b (fun y hy => h y (List.mem_cons_of_mem x hy))]

theorem dropWhile_append_all {p : Nat → Bool} :
    ∀ (a b : Str), (∀ x ∈ a, p x) → (a ++ b).dropWhile p = b.dropWhile p
  | [], b, _ => rfl
  | x :: xs, b, h => by
    have hx : p x := h x (List.mem_cons_self x xs)
    simp only [List.cons_append, List.dropWhile_cons, hx, if_true]
    exact dropWhile_append_all xs b (fun y hy => h y (List.mem_cons_of_mem x hy))

theorem takeWhile_append_stop {p : Nat → Bool} (a : Str) (x : Nat) (b : Str)
    (ha : ∀ y ∈ a, p y) (hx : ¬ p x) : (a ++ x :: b).takeWhile p = a := by
  rw [takeWhile_append_all a (x :: b) ha]
  simp [List.takeWhile_cons, hx]

theorem dropWhile_append_stop {p : Nat → Bool} (a : Str) (x : Nat) (b : Str)
    (ha : ∀ y ∈ a, p y) (hx : ¬ p x) : (a ++ x :: b).dropWhile p = x :: b := by
  rw [dropWhile_append_all a (x :: b) ha]
  simp [List.dropWhile_cons, hx]

theorem takeWhile_eq_self_of_all {p : Nat → Bool} (l : Str)
    (h : ∀ x ∈ l, p x) : l.takeWhile p = l := by
  have := takeWhile_append_all l [] h
  simpa using this

theorem splitFirst_of_not_mem {c : Nat} {l : Str} (h : c ∉ l) :
    splitFirst c l = (l, []) := by
  unfold splitFirst
  have ht : l.takeWhile (· ≠ c) = l :=
    takeWhile_eq_self_of_all l (fun x hx => by
      simp only [decide_eq_true_eq]
      exact fun he => h (he ▸ hx))
  rw [ht]
  simp [List.drop_eq_nil_of_le]

theorem splitFirst_append {c : Nat} (a b : Str) (h : c ∉ a) :
    splitFirst c (a ++ c :: b) = (a, b) := by
  unfold splitFirst
  have ht : (a ++ c :: b).takeWhile (· ≠ c) = a := by
    apply takeWhile_append_stop
    · intro y hy
      simp only [decide_eq_true_eq]
      exact fun he => h (he ▸ hy)
    · simp
  rw [ht]
  have hd : (a ++ c :: b).drop (a.length + 1) = b := by
    rw [show a ++ c :: b = (a ++ [c]) ++ b by simp,
        show a.length + 1 = (a ++ [c]).length by simp]
    exact List.drop_left (a ++ [c]) b
  rw [hd]

/-! ## Lemmas about split, join and filter used for the query string -/

theorem splitAll_ne_nil (c : Nat) : ∀ (l : Str), splitAll c l ≠ []
  | [] => by simp [splitAll]
  | x :: xs => by
    unfold splitAll
    split
    · simp
    · cases h : splitAll c xs with
      | nil => simp
      | cons a t => simp

theorem not_mem_of_mem_splitAll (c : Nat) :
    ∀ (l : Str) (p : Str), p ∈ splitAll c l → c ∉ p
  | [], p, hp => by
    simp only [splitAll, List.mem_singleton] at hp
    subst hp; simp
  | x :: xs, p, hp => by
    unfold splitAll at hp
    by_cases hx : x = c
    · simp only [hx, if_true, List.mem_cons] at hp
      rcases hp with h | h
      · subst h; simp
      · exact not_mem_of_mem_splitAll c xs p h
    · simp only [hx, if_false] at hp
      rcases heq : splitAll c xs with _ | ⟨a, t⟩
      · exact absurd heq (splitAll_ne_nil c xs)
      · rw [heq] at hp
        simp only [List.mem_cons] at hp
        rcases hp with h | h
        · subst h
          intro hm
          rcases List.mem_cons.mp hm with h' | h'
          · exact hx h'.symm
          · exact not_mem_of_mem_splitAll c xs a
              (heq ▸ List.mem_cons_self a t) h'
        · exact not_mem_of_mem_splitAll c xs p (heq ▸ List.mem_cons_of_mem a h)

theorem mem_of_mem_splitAll (c : Nat) :
    ∀ (l : Str) (p : Str), p ∈ splitAll c l → ∀ x ∈ p, x ∈ l
  | [], p, hp => by
    simp only [splitAll, List.mem_singleton] at hp
    subst hp; simp
  | y :: xs, p, hp => by
    unfold splitAll at hp
    by_cases hx : y = c
    · simp only [hx, if_true, List.mem_cons] at hp
      rcases hp with h | h
      · subst h; simp
      · exact fun x hxm =>
          List.mem_cons_of_mem y (mem_of_mem_splitAll c xs p h x hxm)
    · simp only [hx, if_false] at hp
      rcases heq : splitAll c xs with _ | ⟨a, t⟩
      · exact absurd heq (splitAll_ne_nil c xs)
      · rw [heq] at hp
        simp only [List.mem_cons] at hp
        rcases hp with h | h
        · subst h
          intro x hxm
          rcases List.mem_cons.mp hxm with h' | h'
          · exact h' ▸ List.mem_cons_self y xs
          · exact List.mem_cons_of_mem y
              (mem_of_mem_splitAll c xs a (heq ▸ List.mem_cons_self a t) x h')
        · exact fun x hxm => List.mem_cons_of_mem y
            (mem_of_mem_splitAll c xs p (heq ▸ List.mem_cons_of_mem a h) x hxm)

theorem mem_joinWith (c : Nat) :
    ∀ (parts : List Str) (x : Nat), x ∈ joinWith c parts →
      x = c ∨ ∃ p ∈ parts, x ∈ p
  | [], x, hx => by simp [joinWith] at hx
  | [p], x, hx => by
    simp only [joinWith] at hx
    exact Or.inr ⟨p, List.mem_singleton_self p, hx⟩
  | p :: q :: t, x, hx => by
    simp only [joinWith, List.mem_append, List.mem_cons] at hx
    rcases hx with h | h | h
    · exact Or.inr ⟨p, List.mem_cons_self p (q :: t), h⟩
    · exact Or.inl h
    · rcases mem_joinWith c (q :: t) x h with h' | ⟨r, hr, hxr⟩
      · exact Or.inl h'
      · exact Or.inr ⟨r, List.mem_cons_of_mem p hr, hxr⟩

theorem splitAll_eq_singleton (c : Nat) (p : Str) (h : c ∉ p) :
    splitAll c p = [p] := by
  induction p with
  | nil => rfl
  | cons a t ih =>
    have ha : a ≠ c := fun he => h (he ▸ List.mem_cons_self a t)
    have ht : c ∉ t := fun hm => h (List.mem_cons_of_mem a hm)
    unfold splitAll
    rw [if_neg ha, ih ht]

theorem splitAll_append_cons (c : Nat) :
    ∀ (a : Str), c ∉ a → ∀ (b : Str),
      splitAll c (a ++ c :: b) = a :: splitAll c b
  | [], _, b => by simp [splitAll]
  | x :: xs, ha, b => by
    have hx : x ≠ c := fun he => ha (he ▸ List.mem_cons_self x xs)
    have hxs : c ∉ xs := fun hm => ha (List.mem_cons_of_mem x hm)
    have ih := splitAll_append_cons c xs hxs b
    simp only [List.cons_append, splitAll, if_neg hx]
    rw [List.append_eq, ih]

theorem splitAll_joinWith (c : Nat) :
    ∀ (parts : List Str), parts ≠ [] → (∀ p ∈ parts, c ∉ p) →
      splitAll c (joinWith c parts) = parts
  | [], h, _ => absurd rfl h
  | [p], _, hc => by
    simp only [joinWith]
    exact splitAll_eq_singleton c p (hc p (List.mem_singleton_self p))
  | p :: q :: t, _, hc => by
    have step : joinWith c (p :: q :: t) = p ++ c :: joinWith c (q :: t) := rfl
    rw [step, splitAll_append_cons c p (hc p (List.mem_cons_self p (q :: t)))
          (joinWith c (q :: t)),
        splitAll_joinWith c (q :: t) (by simp)
          (fun r hr => hc r (List.mem_cons_of_mem p hr))]

theorem filter_idem {α : Type} (f : α → Bool) (l : List α) :
    (l.filter f).filter f = l.filter f := by
  induction l with
  | nil => rfl
  | cons x xs ih =>
    by_cases hx : f x
    · simp [List.filter_cons, hx, ih]
    · simp [List.filter_cons, hx, ih]

/-! ## Structural facts about the urlsplit model -/

theorem takeWhile_subset' {p : Nat → Bool} (l : Str) :
    ∀ x ∈ l.takeWhile p, x ∈ l := by
  induction l with
  | nil => simp
  | cons a t ih =>
    intro x hx
    rw [List.takeWhile_cons] at hx
    by_cases ha : p a
    · rw [if_pos ha] at hx
      rcases List.mem_cons.mp hx with h | h
      · exact h ▸ List.mem_cons_self a t
      · exact List.mem_cons_of_mem a (ih x h)
    · rw [if_neg ha] at hx
      simp at hx

theorem dropWhile_head_or_nil {p : Nat → Bool} (l : Str) :
    l.dropWhile p = [] ∨ ∃ x t, l.dropWhile p = x :: t ∧ ¬ p x := by
  induction l with
  | nil => exact Or.inl rfl
  | cons a t ih =>
    rw [List.dropWhile_cons]
    by_cases ha : p a
    · rw [if_pos ha]; exact ih
    · rw [if_neg ha]; exact Or.inr ⟨a, t, rfl, ha⟩

theorem splitFragment_fst_subset (r : Str) :
    ∀ x ∈ (splitFragment r).1, x ∈ r := by
  unfold splitFragment
  split
  · exact fun x hx => takeWhile_subset' r x hx
  · exact fun x hx => hx

theorem splitFragment_fst_no_hash (r : Str) : (ch '#') ∉ (splitFragment r).1 := by
  unfold splitFragment
  split
  · intro hx
    have := List.mem_takeWhile_imp hx
    simp at this
  · rename_i h
    exact h

theorem splitQuery_fst_no_qm (r : Str) : (ch '?') ∉ (splitQuery r).1 := by
  unfold splitQuery
  split
  · intro hx
    have := List.mem_takeWhile_imp hx
    simp at this
  · rename_i h
    exact h

theorem splitQuery_fst_subset (r : Str) : ∀ x ∈ (splitQuery r).1, x ∈ r := by
  unfold splitQuery
  split
  · exact fun x hx => takeWhile_subset' r x hx
  · exact fun x hx => hx

theorem splitQuery_snd_subset (r : Str) : ∀ x ∈ (splitQuery r).2, x ∈ r := by
  unfold splitQuery
  split
  · exact fun x hx => List.drop_subset _ r hx
  · simp

theorem splitNetloc_fst_facts (r : Str) :
    ∀ x ∈ (splitNetloc r).1, ¬ isNetlocEnd x := by
  unfold splitNetloc
  split
  · intro x hx
    have := List.mem_takeWhile_imp hx
    simpa using this
  · simp

/-- The path component of urlsplit contains neither a question mark nor a
hash; the query contains no hash; the netloc none of the terminators. -/
theorem pyUrlsplit_char_facts (u : Str) :
    (ch '?') ∉ (pyUrlsplit u).path ∧ (ch '#') ∉ (pyUrlsplit u).path ∧
    (ch '#') ∉ (pyUrlsplit u).query ∧
    ∀ x ∈ (pyUrlsplit u).netloc, ¬ isNetlocEnd x := by
  refine ⟨splitQuery_fst_no_qm _, ?_, ?_, splitNetloc_fst_facts _⟩
  · intro hx
    exact splitFragment_fst_no_hash _ (splitQuery_fst_subset _ _ hx)
  · intro hx
    exact splitFragment_fst_no_hash _ (splitQuery_snd_subset _ _ hx)

theorem splitFragment_cons_keep {x : Nat} (hx : x ≠ ch '#') (t : Str) :
    ∃ t', (splitFragment (x :: t)).1 = x :: t' := by
  unfold splitFragment
  split
  · refine ⟨t.takeWhile (· ≠ ch '#'), ?_⟩
    show (x :: t).takeWhile (· ≠ ch '#') = _
    rw [List.takeWhile_cons]
    simp [hx]
  · exact ⟨t, rfl⟩

theorem splitQuery_cons_keep {x : Nat} (hx : x ≠ ch '?') (t : Str) :
    ∃ t', (splitQuery (x :: t)).1 = x :: t' := by
  unfold splitQuery
  split
  · refine ⟨t.takeWhile (· ≠ ch '?'), ?_⟩
    show (x :: t).takeWhile (· ≠ ch '?') = _
    rw [List.takeWhile_cons]
    simp [hx]
  · exact ⟨t, rfl⟩

/-- When the remainder after the scheme starts with "//" (an authority is
present), the urlsplit path is empty or starts with a slash. -/
theorem pyUrlsplit_path_start (u : Str)
    (hauth : ((pySplitScheme u).2).take 2 = [ch '/', ch '/']) :
    (pyUrlsplit u).path = [] ∨ ∃ t, (pyUrlsplit u).path = ch '/' :: t := by
  have hpath : (pyUrlsplit u).path =
      (splitQuery (splitFragment (splitNetloc (pySplitScheme u).2).2).1).1 := rfl
  have hr2 : (splitNetloc (pySplitScheme u).2).2 =
      ((pySplitScheme u).2.drop 2).dropWhile (fun c => ¬ isNetlocEnd c) := by
    unfold splitNetloc
    rw [if_pos hauth]
  rcases dropWhile_head_or_nil (p := fun c => ¬ isNetlocEnd c)
      ((pySplitScheme u).2.drop 2) with hnil | ⟨x, t, hcons, hx⟩
  · left
    rw [hpath, hr2, hnil]
    rfl
  · have hxe : isNetlocEnd x := by simpa using hx
    rw [hpath, hr2, hcons]
    rcases hxe with h47 | h63 | h35
    · right
      subst h47
      rw [show (47 : Nat) = ch '/' from by decide]
      obtain ⟨t1, ht1⟩ := splitFragment_cons_keep (x := ch '/') (by decide) t
      rw [ht1]
      obtain ⟨t2, ht2⟩ := splitQuery_cons_keep (x := ch '/') (by decide) t1
      rw [ht2]
      exact ⟨t2, rfl⟩
    · left
      subst h63
      rw [show (63 : Nat) = ch '?' from by decide]
      obtain ⟨t1, ht1⟩ := splitFragment_cons_keep (x := ch '?') (by decide) t
      rw [ht1]
      unfold splitQuery
      rw [if_pos (List.mem_cons_self _ _)]
      show (ch '?' :: t1).takeWhile (· ≠ ch '?') = []
      rw [List.takeWhile_cons]
      simp
    · left
      subst h35
      rw [show (35 : Nat) = ch '#' from by decide]
      unfold splitFragment
      rw [if_pos (List.mem_cons_self _ _)]
      show (splitQuery ((ch '#' :: t).takeWhile (· ≠ ch '#'), _).1).1 = []
      rw [List.takeWhile_cons]
      simp [splitQuery]

/-! ## Round trip: parsing the string rebuilt by _normalize_url -/

theorem schemeChar_ne_colon {n : Nat} (h : isSchemeChar n) : n ≠ ch ':' := by
  unfold isSchemeChar at h
  have : (58 : Nat) = ch ':' := by decide
  rw [← this]
  omega

theorem pySplitScheme_append (s rest : Str) (hvs : validSchemeName s)
    (hls : lowerStr s = s) :
    pySplitScheme (s ++ ch ':' :: rest) = (s, rest) := by
  have hns : ∀ y ∈ s, (fun x => decide (x ≠ ch ':')) y = true := by
    intro y hy
    simp only [decide_eq_true_eq]
    rcases s with _ | ⟨c, cs⟩
    · simp at hy
    · exact schemeChar_ne_colon (hvs.2 y hy)
  have htw : (s ++ ch ':' :: rest).takeWhile (· ≠ ch ':') = s :=
    takeWhile_append_stop s (ch ':') rest hns (by simp)
  unfold pySplitScheme
  rw [htw, if_pos]
  · rw [hls]
    have : (s ++ ch ':' :: rest).drop (s.length + 1) = rest := by
      rw [show s ++ ch ':' :: rest = (s ++ [ch ':']) ++ rest by simp,
          show s.length + 1 = (s ++ [ch ':']).length by simp]
      exact List.drop_left (s ++ [ch ':']) rest
    rw [this]
  · constructor
    · simp only [List.length_append, List.length_cons]
      omega
    · exact hvs

namespace Crawler

theorem pyUrlsplit_buildNorm (s n p q : Str) (hvs : validSchemeName s)
    (hls : lowerStr s = s)
    (hn : ∀ x ∈ n, ¬ isNetlocEnd x)
    (hp : ∃ t, p = ch '/' :: t)
    (hpq : ch '?' ∉ p) (hpf : ch '#' ∉ p) (hqf : ch '#' ∉ q) :
    pyUrlsplit (buildNorm s n p q) = ⟨s, n, p, q, []⟩ := by
  obtain ⟨t, hpt⟩ := hp
  have hbuild : buildNorm s n p q =
      s ++ ch ':' :: (ch '/' :: ch '/' ::
        (n ++ p ++ (if q ≠ [] then ch '?' :: q else []))) := by
    unfold buildNorm
    simp
  have hscheme : pySplitScheme (buildNorm s n p q) =
      (s, ch '/' :: ch '/' ::
        (n ++ p ++ (if q ≠ [] then ch '?' :: q else []))) := by
    rw [hbuild]
    exact pySplitScheme_append s _ hvs hls
  set opt : Str := if q ≠ [] then ch '?' :: q else [] with hopt
  -- netloc stage
  have hnall : ∀ y ∈ n, (fun c => decide (¬ isNetlocEnd c)) y = true := by
    intro y hy
    simp only [decide_eq_true_eq]
    exact hn y hy
  have hstop : ¬ (fun c => decide (¬ isNetlocEnd c)) (ch '/') = true := by
    decide
  have happ : n ++ p ++ opt = n ++ (ch '/') :: (t ++ opt) := by
    rw [hpt]; simp
  have hnet : splitNetloc (ch '/' :: ch '/' :: (n ++ p ++ opt)) =
      (n, p ++ opt) := by
    unfold splitNetloc
    rw [if_pos (by simp)]
    show ((n ++ p ++ opt).takeWhile _, (n ++ p ++ opt).dropWhile _) = _
    rw [happ, takeWhile_append_stop n (ch '/') (t ++ opt) hnall hstop,
        dropWhile_append_stop n (ch '/') (t ++ opt) hnall hstop, hpt]
    simp
  -- fragment stage
  have hnofrag : ch '#' ∉ p ++ opt := by
    intro hx
    rcases List.mem_append.mp hx with h | h
    · exact hpf h
    · rw [hopt] at h
      by_cases hq : q ≠ []
      · rw [if_pos hq] at h
        rcases List.mem_cons.mp h with h' | h'
        · exact absurd h' (by decide)
        · exact hqf h'
      · rw [if_neg hq] at h
        simp at h
  have hfrag : splitFragment (p ++ opt) = (p ++ opt, []) := by
    unfold splitFragment
    rw [if_neg hnofrag]
  -- query stage
  have hquery : splitQuery (p ++ opt) = (p, q) := by
    by_cases hq : q ≠ []
    · have : p ++ opt = p ++ ch '?' :: q := by rw [hopt, if_pos hq]
      rw [this]
      unfold splitQuery
      rw [if_pos (by simp)]
      exact splitFirst_append p q hpq
    · have hqe : q = [] := by simpa using hq
      have : p ++ opt = p := by rw [hopt, if_neg hq]; simp
      rw [this]
      unfold splitQuery
      rw [if_neg hpq]
      rw [hqe]
  show (⟨_, _, _, _, _⟩ : SplitResult) = _
  rw [hscheme]
  simp only [hnet, hfrag, hquery]
end Crawler


/-! ## endsWith, fixPath, dropLastPort and filterQuery facts -/

theorem endsWithL_iff (suf s : Str) : endsWithL suf s ↔ ∃ a, s = a ++ suf := by
  constructor
  · rintro ⟨hlen, hdrop⟩
    refine ⟨s.take (s.length - suf.length), ?_⟩
    conv_lhs => rw [← List.take_append_drop (s.length - suf.length) s]
    rw [hdrop]
  · rintro ⟨a, rfl⟩
    constructor
    · simp
    · rw [show (a ++ suf).length - suf.length = a.length by simp]
      exact List.drop_left a suf

theorem endsWithL_mem {suf s : Str} (h : endsWithL suf s) {x : Nat}
    (hx : x ∈ suf) : x ∈ s := by
  obtain ⟨a, rfl⟩ := (endsWithL_iff suf s).mp h
  exact List.mem_append_right a hx

namespace Crawler

theorem stripSlash_subset {p : Str} {x : Nat} (hx : x ∈ stripSlash p) :
    x ∈ p := by
  unfold stripSlash at hx
  split at hx
  · exact List.dropLast_subset p hx
  · exact hx

theorem fixPath_mem {p : Str} {x : Nat} (hx : x ∈ fixPath p) :
    x = ch '/' ∨ x ∈ p := by
  unfold fixPath at hx
  split at hx
  · left
    simpa using hx
  · right
    exact stripSlash_subset hx

theorem stripSlash_starts {p : Str}
    (hp : ∃ t, p = ch '/' :: t) :
    stripSlash p = [] ∨ ∃ t, stripSlash p = ch '/' :: t := by
  obtain ⟨t, rfl⟩ := hp
  unfold stripSlash
  split
  · rcases t with _ | ⟨y, ys⟩
    · exact Or.inl rfl
    · rw [List.dropLast_cons₂]
      exact Or.inr ⟨(y :: ys).dropLast, rfl⟩
  · exact Or.inr ⟨t, rfl⟩

theorem fixPath_starts {p : Str}
    (hp : p = [] ∨ ∃ t, p = ch '/' :: t) :
    ∃ t, fixPath p = ch '/' :: t := by
  rcases hp with rfl | hp
  · exact ⟨[], by decide⟩
  · unfold fixPath
    rcases stripSlash_starts hp with hnil | ⟨t, ht⟩
    · rw [hnil]
      exact ⟨[], rfl⟩
    · rw [ht]
      split
    
      · rename_i hcontra
        simp at hcontra
      · exact ⟨t, rfl⟩

theorem fixPath_fixed {r : Str}
    (h : r = [ch '/'] ∨ (r ≠ [] ∧ ¬ endsWithL [ch '/'] r)) :
    fixPath r = r := by
  rcases h with rfl | ⟨hne, hend⟩
  · decide
  · unfold fixPath stripSlash
    rw [if_neg hend, if_neg hne]

theorem stripSlash_spec {p : Str}
    (h : ¬ endsWithL (chars "//") p) :
    stripSlash p = [] ∨ (stripSlash p ≠ [] ∧ ¬ endsWithL [ch '/'] (stripSlash p)) := by
  unfold stripSlash
  by_cases he : endsWithL [ch '/'] p
  · rw [if_pos he]
    obtain ⟨a, rfl⟩ := (endsWithL_iff [ch '/'] p).mp he
    rw [List.dropLast_concat]
    by_cases ha : a = []
    · exact Or.inl ha
    · right
      refine ⟨ha, fun hcon => ?_⟩
      obtain ⟨b, rfl⟩ := (endsWithL_iff [ch '/'] a).mp hcon
      apply h
      rw [endsWithL_iff]
      refine ⟨b, ?_⟩
      have hc : chars "//" = [ch '/', ch '/'] := by decide
      rw [hc]
      simp
  · rw [if_neg he]
    by_cases hp : p = []
    · exact Or.inl hp
    · exact Or.inr ⟨hp, he⟩

theorem fixPath_invariant {p : Str}
    (h : ¬ endsWithL (chars "//") p) :
    fixPath p = [ch '/'] ∨ (fixPath p ≠ [] ∧ ¬ endsWithL [ch '/'] (fixPath p)) := by
  unfold fixPath
  rcases stripSlash_spec h with hnil | ⟨hne, hend⟩
  · rw [hnil]
    exact Or.inl (if_pos rfl)
  · rw [if_neg hne]
    exact Or.inr ⟨hne, hend⟩

theorem lowerStr_stripSlash_of_fixed {m : Str} (hm : lowerStr m = m) :
    lowerStr (stripSlash m) = stripSlash m := by
  unfold stripSlash
  split
  · show lowerStr (m.dropLast) = m.dropLast
    have hm' : List.map asciiLower m = m := hm
    rw [List.dropLast_eq_take]
    show List.map asciiLower (m.take (m.length - 1)) = m.take (m.length - 1)
    rw [List.map_take, hm']
  · exact hm

theorem lowerStr_fixPath_of_fixed {m : Str} (hm : lowerStr m = m) :
    lowerStr (fixPath m) = fixPath m := by
  unfold fixPath
  split
  · decide
  · exact lowerStr_stripSlash_of_fixed hm

theorem dropLastPort_spec {m : Str} (hm : (ch ':') ∈ m) :
    ∃ a b, m = a ++ ch ':' :: b ∧ (ch ':') ∉ b ∧ dropLastPort m = a := by
  rcases dropWhile_head_or_nil (p := fun x => decide (x ≠ ch ':')) m.reverse
      with hnil | ⟨x, d, hcons, hx⟩
  · exfalso
    have : m.reverse.takeWhile (fun x => decide (x ≠ ch ':')) = m.reverse := by
      have := List.takeWhile_append_dropWhile
        (p := fun x => decide (x ≠ ch ':')) (l := m.reverse)
      rw [hnil] at this
      simpa using this
    have hmem : (ch ':') ∈ m.reverse := List.mem_reverse.mpr hm
    rw [← this] at hmem
    have := List.mem_takeWhile_imp hmem
    simp at this
  · have hxc : x = ch ':' := by simpa using hx
    subst hxc
    set c := m.reverse.takeWhile (fun x => decide (x ≠ ch ':')) with hc
    have hdecomp : m.reverse = c ++ ch ':' :: d := by
      rw [hc, ← hcons]
      exact (List.takeWhile_append_dropWhile ..).symm
    have hcnot : (ch ':') ∉ c := by
      intro hmem
      have := List.mem_takeWhile_imp (hc ▸ hmem)
      simp at this
    refine ⟨d.reverse, c.reverse, ?_, ?_, ?_⟩
    · rw [← List.reverse_reverse m, hdecomp]
      simp
    · intro hmem
      exact hcnot (List.mem_reverse.mp hmem)
    · unfold dropLastPort
      rw [if_pos hm, ← hc]
      have hlen : m.length = d.reverse.length + 1 + c.length := by
        have := congrArg List.length hdecomp
        simp at this
        simp
        omega
      rw [hlen]
      have : d.reverse.length + 1 + c.length - (c.length + 1) = d.reverse.length := by
        omega
      rw [this]
      have hfront : m = d.reverse ++ ch ':' :: c.reverse := by
        rw [← List.reverse_reverse m, hdecomp]
        simp
      rw [hfront]
      exact List.take_left d.reverse _

theorem count_lowerStr_colon (m : Str) :
    (lowerStr m).count (ch ':') = m.count (ch ':') := by
  induction m with
  | nil => rfl
  | cons x t ih =>
    show (asciiLower x :: lowerStr t).count (ch ':') = (x :: t).count (ch ':')
    rw [List.count_cons, List.count_cons, ih]
    by_cases hx : x = ch ':'
    · subst hx
      rw [show asciiLower (ch ':') = ch ':' from by decide]
    · have : asciiLower x ≠ ch ':' := by
        intro he
        exact hx ((asciiLower_eq_low (by decide) x).mp he)
      simp [hx, this]

theorem dropLastPort_no_colon {m : Str} (h1 : m.count (ch ':') ≤ 1)
    (hm : (ch ':') ∈ m) : (ch ':') ∉ dropLastPort m := by
  obtain ⟨a, b, hdecomp, _, heq⟩ := dropLastPort_spec hm
  rw [heq]
  intro hmem
  have hcount : m.count (ch ':') = a.count (ch ':') + 1 + b.count (ch ':') := by
    rw [hdecomp]
    simp [List.count_append, List.count_cons]
    omega
  have : 0 < a.count (ch ':') := List.count_pos_iff.mpr hmem
  omega

theorem dropLastPort_subset {m : Str} {x : Nat} (hx : x ∈ dropLastPort m) :
    x ∈ m := by
  unfold dropLastPort at hx
  split at hx
  · exact List.take_subset _ m hx
  · exact hx

theorem filterQuery_no_hash {q : Str} (hq : (ch '#') ∉ q) :
    (ch '#') ∉ filterQuery q := by
  unfold filterQuery
  intro hmem
  rcases mem_joinWith (ch '&') _ _ hmem with h | ⟨p, hp, hxp⟩
  · exact absurd h (by decide)
  · have hpmem : p ∈ splitAll (ch '&') q := List.mem_of_mem_filter hp
    exact hq (mem_of_mem_splitAll (ch '&') q p hpmem (ch '#') hxp)

theorem filterQuery_idem (q : Str) :
    filterQuery (filterQuery q) = filterQuery q := by
  by_cases hk : (splitAll (ch '&') q).filter (fun p => keepParam p) = []
  · have h1 : filterQuery q = [] := by
      unfold filterQuery
      rw [hk]
      rfl
    rw [h1]
    decide
  · have hkept : ∀ p ∈ (splitAll (ch '&') q).filter (fun p => keepParam p),
        (ch '&') ∉ p := by
      intro p hp
      exact not_mem_of_mem_splitAll (ch '&') q p (List.mem_of_mem_filter hp)
    show filterQuery (joinWith (ch '&')
        ((splitAll (ch '&') q).filter (fun p => keepParam p))) = _
    unfold filterQuery
    rw [splitAll_joinWith (ch '&') _ hk hkept, filter_idem]

/-! ## The idempotence theorem for _normalize_url -/

theorem normalize_url_of_parse {v : Str} (s n p q : Str)
    (hparse : pyUrlparse v = ⟨s, n, p, [], q, []⟩)
    (hn : lowerStr n = n) (hnc : ¬ portCond s n)
    (hp : lowerStr p = p) (hfp : fixPath p = p)
    (hq : q ≠ [] → filterQuery q = q) :
    normalize_url v = buildNorm s n p q := by
  unfold normalize_url normNetloc normPath normQuery
  rw [hparse]
  show buildNorm s (if portCond s (lowerStr n) then dropLastPort (lowerStr n)
    else lowerStr n) (fixPath (lowerStr p)) (if q ≠ [] then filterQuery q else q) = _
  rw [hn, hp, if_neg hnc, hfp]
  by_cases hqe : q ≠ []
  · rw [if_pos hqe, hq hqe]
  · rw [if_neg hqe]

theorem pyUrlparse_buildNorm (s n p q : Str) (hvs : validSchemeName s)
    (hls : lowerStr s = s)
    (hn : ∀ x ∈ n, ¬ isNetlocEnd x)
    (hp : ∃ t, p = ch '/' :: t)
    (hpq : ch '?' ∉ p) (hpf : ch '#' ∉ p) (hqf : ch '#' ∉ q)
    (hps : ch ';' ∉ p) :
    pyUrlparse (buildNorm s n p q) = ⟨s, n, p, [], q, []⟩ := by
  unfold pyUrlparse
  rw [show (pyUrlsplit (buildNorm s n p q)) = ⟨s, n, p, q, []⟩ from
    pyUrlsplit_buildNorm s n p q hvs hls hn hp hpq hpf hqf]
  show (⟨s, n, (paramsSplit s p).1, (paramsSplit s p).2, q, []⟩ : ParseResult) = _
  unfold paramsSplit
  rw [if_neg (fun hand => hps hand.2)]

theorem lowerStr_dropLastPort_of_fixed {m : Str} (hm : lowerStr m = m) :
    lowerStr (dropLastPort m) = dropLastPort m := by
  unfold dropLastPort
  split
  · show lowerStr (m.take _) = m.take _
    have hm' : List.map asciiLower m = m := hm
    show List.map asciiLower (m.take _) = m.take _
    rw [List.map_take, hm']
  · exact hm

theorem lowerStr_pair47 {l : Str} (h : lowerStr l = [47, 47]) :
    l = [47, 47] := by
  rcases l with _ | ⟨x, _ | ⟨y, _ | _⟩⟩ <;> simp only [lowerStr, List.map] at h
  · exact absurd h (by simp)
  · exact absurd h (by simp)
  · have hx : asciiLower x = 47 := by injection h
    have h' := h
    injection h' with h1 h2
    injection h2 with h3 h4
    have : x = 47 := (asciiLower_eq_low (by omega) x).mp h1
    have : y = 47 := (asciiLower_eq_low (by omega) y).mp h3
    subst_vars
    rfl
  · exact absurd h (by simp)

theorem endsWith_slashes_of_lower {l : Str}
    (h : endsWithL (chars "//") (lowerStr l)) :
    endsWithL (chars "//") l := by
  have hc : chars "//" = [47, 47] := by decide
  rw [hc] at h ⊢
  obtain ⟨hlen, hdrop⟩ := h
  have hlength : (lowerStr l).length = l.length := List.length_map l asciiLower
  constructor
  · omega
  · rw [hlength] at hdrop
    have hmapdrop : List.map asciiLower (l.drop (l.length - 2)) =
        (List.map asciiLower l).drop (l.length - 2) := List.map_drop ..
    have : lowerStr (l.drop (l.length - 2)) = [47, 47] := by
      show List.map asciiLower (l.drop (l.length - 2)) = _
      rw [hmapdrop]
      exact hdrop
    have := lowerStr_pair47 this
    simpa [List.length_map] using this

/-- C3 counterexample: _normalize_url is not idempotent for every URL.  It
fails on scheme-less URLs, on http URLs with a ";params" trailing path
segment, on netlocs carrying a repeated default port, and on paths ending
in a double slash. -/
theorem C3_counterexample :
    normalize_url (normalize_url (chars "a")) ≠ normalize_url (chars "a") ∧
    normalize_url (normalize_url (chars "http://a/b;p/")) ≠
      normalize_url (chars "http://a/b;p/") ∧
    normalize_url (normalize_url (chars "http://a:80:80/")) ≠
      normalize_url (chars "http://a:80:80/") ∧
    normalize_url (normalize_url (chars "http://x.com/a//")) ≠
      normalize_url (chars "http://x.com/a//") := by
  refine ⟨by decide, by decide, by decide, by decide⟩

/-- Idempotence of _normalize_url on URLs with an explicit http or https
scheme followed by an authority ("//"), whose path carries no ";" segment
and no trailing double slash, and whose netloc has at most one colon. -/
theorem normalize_url_idem (u : Str)
    (hs : (pySplitScheme u).1 = chars "http" ∨
          (pySplitScheme u).1 = chars "https")
    (hauth : ((pySplitScheme u).2).take 2 = [ch '/', ch '/'])
    (hsemi : (ch ';') ∉ (pyUrlsplit u).path)
    (hslash : ¬ endsWithL (chars "//") (pyUrlsplit u).path)
    (hcolon : ((pyUrlsplit u).netloc).count (ch ':') ≤ 1) :
    normalize_url (normalize_url u) = normalize_url u := by
  obtain ⟨hq63, hq35p, hq35q, hnet⟩ := pyUrlsplit_char_facts u
  set S := (pyUrlsplit u).scheme with hSdef
  set netloc0 := (pyUrlsplit u).netloc with hn0def
  set path0 := (pyUrlsplit u).path with hp0def
  set q0 := (pyUrlsplit u).query with hq0def
  have hS : S = chars "http" ∨ S = chars "https" := hs
  -- the params stage leaves the path alone
  have hpp : (pyUrlparse u).path = path0 := by
    show (paramsSplit S path0).1 = path0
    unfold paramsSplit
    rw [if_neg (fun h => hsemi h.2)]
  set N := normNetloc u with hNdef
  set P := normPath u with hPdef
  set Q := normQuery u with hQdef
  have hNeq : N = if portCond S (lowerStr netloc0) then
      dropLastPort (lowerStr netloc0) else lowerStr netloc0 := rfl
  have hPeq : P = fixPath (lowerStr path0) := by
    rw [hPdef]
    unfold normPath
    rw [hpp]
  have hQeq : Q = if q0 ≠ [] then filterQuery q0 else q0 := rfl
  -- scheme facts
  have hvs : validSchemeName S := by
    rcases hS with h | h <;> rw [h] <;> decide
  have hls : lowerStr S = S := by
    rcases hS with h | h <;> rw [h] <;> decide
  -- netloc facts
  have hNsub : ∀ x ∈ N, x ∈ lowerStr netloc0 := by
    intro x hx
    rw [hNeq] at hx
    split at hx
    · exact dropLastPort_subset hx
    · exact hx
  have hnN : ∀ x ∈ N, ¬ isNetlocEnd x := by
    intro x hx hend
    have hxl : x ∈ lowerStr netloc0 := hNsub x hx
    have hx0 : x ∈ netloc0 := by
      rcases hend with h | h | h <;> subst h <;>
        exact (mem_lowerStr_low (by omega) netloc0).mp hxl
    rcases hend with h | h | h <;> exact hnet x hx0 (by unfold isNetlocEnd; omega)
  -- path facts
  have hpstart : ∃ t, P = ch '/' :: t := by
    rw [hPeq]
    apply fixPath_starts
    rcases pyUrlsplit_path_start u hauth with h | ⟨t, ht⟩
    · left
      rw [← hp0def] at h
      rw [h]
      rfl
    · right
      rw [← hp0def] at ht
      refine ⟨lowerStr t, ?_⟩
      rw [ht]
      show asciiLower (ch '/') :: lowerStr t = _
      rw [show asciiLower (ch '/') = ch '/' from by decide]
  have hPfree : ∀ x : Nat, x < 65 → x ≠ 47 → x ∉ path0 → x ∉ P := by
    intro x hlt hne hnp hx
    rw [hPeq] at hx
    rcases fixPath_mem hx with h | h
    · exact hne (by rw [h]; decide)
    · exact hnp ((mem_lowerStr_low hlt path0).mp h)
  have hP63 : ch '?' ∉ P := hPfree (ch '?') (by decide) (by decide) hq63
  have hP35 : ch '#' ∉ P := hPfree (ch '#') (by decide) (by decide) hq35p
  have hP59 : ch ';' ∉ P := hPfree (ch ';') (by decide) (by decide) hsemi
  -- query facts
  have hQ35 : ch '#' ∉ Q := by
    rw [hQeq]
    split
    · exact filterQuery_no_hash hq35q
    · exact hq35q
  -- fixed-point conditions
  have hlnN : lowerStr N = N := by
    rw [hNeq]
    split
    · exact lowerStr_dropLastPort_of_fixed (lowerStr_idem netloc0)
    · exact lowerStr_idem netloc0
  have hncN : ¬ portCond S N := by
    rw [hNeq]
    by_cases hcond : portCond S (lowerStr netloc0)
    · rw [if_pos hcond]
      have hcolmem : (ch ':') ∈ lowerStr netloc0 := by
        rcases hcond with ⟨_, hend⟩ | ⟨_, hend⟩
        · exact endsWithL_mem hend (by decide)
        · exact endsWithL_mem hend (by decide)
      have hcnt : (lowerStr netloc0).count (ch ':') ≤ 1 := by
        rw [count_lowerStr_colon]
        exact hcolon
      have hnocol := dropLastPort_no_colon hcnt hcolmem
      intro hcon
      rcases hcon with ⟨_, hend⟩ | ⟨_, hend⟩
      · exact hnocol (endsWithL_mem hend (by decide))
      · exact hnocol (endsWithL_mem hend (by decide))
    · rw [if_neg hcond]
      exact hcond
  have hlP : lowerStr P = P := by
    rw [hPeq]
    exact lowerStr_fixPath_of_fixed (lowerStr_idem path0)
  have hfixP : fixPath P = P := by
    rw [hPeq]
    apply fixPath_fixed
    apply fixPath_invariant
    intro hcon
    exact hslash (endsWith_slashes_of_lower hcon)
  have hQfix : Q ≠ [] → filterQuery Q = Q := by
    intro hQne
    rw [hQeq]
    by_cases hq0 : q0 ≠ []
    · rw [if_pos hq0]
      exact filterQuery_idem q0
    · exfalso
      apply hQne
      rw [hQeq, if_neg hq0]
      simpa using hq0
  -- assembly
  have hA : normalize_url u = buildNorm S N P Q := rfl
  have hround : pyUrlparse (buildNorm S N P Q) = ⟨S, N, P, [], Q, []⟩ :=
    pyUrlparse_buildNorm S N P Q hvs hls hnN hpstart hP63 hP35 hQ35 hP59
  have hfinal : normalize_url (buildNorm S N P Q) = buildNorm S N P Q :=
    normalize_url_of_parse S N P Q hround hlnN hncN hlP hfixP hQfix
  rw [hA, hfinal]

/-- C3 (amended): _normalize_url is idempotent on every URL with an
explicit http or https scheme followed by a "//" authority, whose path
contains no semicolon and does not end in a double slash, and whose netloc
contains at most one colon (in particular on every URL the crawler
itself builds); and it identifies the spec's example pair: the normal form
of "HTTP://Example.com:80/Foo/?utm_source=x" equals the normal form of
"http://example.com/Foo" (case, default port, fragment and tracking-query
insensitivity). -/
theorem C3_theorem (u : Str)
    (hs : (pySplitScheme u).1 = chars "http" ∨
          (pySplitScheme u).1 = chars "https")
    (hauth : ((pySplitScheme u).2).take 2 = [ch '/', ch '/'])
    (hsemi : (ch ';') ∉ (pyUrlsplit u).path)
    (hslash : ¬ endsWithL (chars "//") (pyUrlsplit u).path)
    (hcolon : ((pyUrlsplit u).netloc).count (ch ':') ≤ 1) :
    normalize_url (normalize_url u) = normalize_url u ∧
    normalize_url (chars "HTTP://Example.com:80/Foo/?utm_source=x") =
      normalize_url (chars "http://example.com/Foo") :=
  ⟨normalize_url_idem u hs hauth hsemi hslash hcolon, by decide⟩

/-- C3 witness: the amended idempotence theorem applied to the concrete
URL "http://Example.com:80/Foo/?utm_source=x&a=b". -/
theorem C3_witness :
    normalize_url (normalize_url
      (chars "http://Example.com:80/Foo/?utm_source=x&a=b")) =
    normalize_url (chars "http://Example.com:80/Foo/?utm_source=x&a=b") :=
  (C3_theorem (chars "http://Example.com:80/Foo/?utm_source=x&a=b")
    (Or.inl (by decide)) (by decide) (by decide) (by decide) (by decide)).1
end Crawler

namespace NavDetector

theorem dictGet_dictSet (m : List (Str × Int)) (k : Str) (v : Int) (u : Str) :
    dictGet (dictSet m k v) u = if u = k then v else dictGet m u := by
  induction m with
  | nil =>
    show dictGet [(k, v)] u = _
    unfold dictGet
    by_cases h : k = u
    · rw [if_pos h, if_pos h.symm]
    · rw [if_neg h, if_neg (fun he => h he.symm)]
      rfl
  | cons kv t ih =>
    obtain ⟨k', v'⟩ := kv
    unfold dictSet
    by_cases hk : k' = k
    · rw [if_pos hk]
      show dictGet ((k', v) :: t) u = _
      unfold dictGet
      by_cases hu : k' = u
      · rw [if_pos hu, if_pos (by rw [← hu, hk] : u = k)]
      · rw [if_neg hu, if_neg (fun he : u = k => hu (by rw [hk, ← he])),
            if_neg hu]
    · rw [if_neg hk]
      show dictGet ((k', v') :: dictSet t k v) u = _
      unfold dictGet
      by_cases hu : k' = u
      · have hnk : ¬ u = k := fun he => hk (hu.trans he)
        rw [if_pos hu, if_neg hnk, if_pos hu]
      · rw [if_neg hu, ih]
        by_cases huk : u = k
        · rw [if_pos huk, if_pos huk]
        · rw [if_neg huk, if_neg huk, if_neg hu]

theorem creditsTo_false_of_ne {baseUrl href full : Str}
    (hn : normalize_href baseUrl href = some full) {u : Str} (hu : u ≠ full)
    (baseDomain : Str) : creditsTo baseUrl baseDomain u href = false := by
  unfold creditsTo
  rw [hn]
  have : decide ((some full : Option Str) = some u) = false :=
    decide_eq_false (fun he => hu (Option.some.inj he).symm)
  rw [this]
  simp

theorem creditsTo_false_of_none {baseUrl href : Str}
    (hn : normalize_href baseUrl href = none) (baseDomain u : Str) :
    creditsTo baseUrl baseDomain u href = false := by
  unfold creditsTo
  rw [hn]
  simp

theorem creditsTo_of_some {baseUrl href u : Str} (h0 : href ≠ [])
    (hn : normalize_href baseUrl href = some u) (baseDomain : Str) :
    creditsTo baseUrl baseDomain u href =
      (is_internal_link baseDomain u && ! should_exclude u) := by
  unfold creditsTo
  rw [hn]
  simp [h0]

theorem selStep_get (baseUrl baseDomain : Str) (sel : Str × Int)
    (acc : List (Str × Int)) (href u : Str) :
    dictGet (selStep baseUrl baseDomain sel acc href) u =
      dictGet acc u + (if creditsTo baseUrl baseDomain u href then sel.2 else 0) := by
  unfold selStep
  by_cases h0 : href = []
  · rw [if_pos h0]
    have : creditsTo baseUrl baseDomain u href = false := by
      unfold creditsTo
      simp [h0]
    rw [this]
    simp
  · rw [if_neg h0]
    rcases hn : normalize_href baseUrl href with _ | full
    · rw [creditsTo_false_of_none hn]
      simp
    · dsimp only
      by_cases hu : u = full
      · subst hu
        rw [creditsTo_of_some h0 hn]
        by_cases hint : is_internal_link baseDomain u
        · rw [if_pos hint]
          by_cases hexc : should_exclude u
          · rw [if_pos hexc, hint, hexc]
            simp
          · rw [if_neg hexc, hint, dictGet_dictSet, if_pos rfl,
                Bool.eq_false_iff.mpr hexc]
            simp
        · rw [if_neg hint, Bool.eq_false_iff.mpr hint]
          simp
      · rw [creditsTo_false_of_ne hn hu]
        by_cases hint : is_internal_link baseDomain full
        · rw [if_pos hint]
          by_cases hexc : should_exclude full
          · rw [if_pos hexc]
            simp
          · rw [if_neg hexc, dictGet_dictSet, if_neg hu]
            simp
        · rw [if_neg hint]
          simp

theorem foldl_selStep_get (baseUrl baseDomain : Str) (sel : Str × Int)
    (u : Str) :
    ∀ (hrefs : List Str) (m : List (Str × Int)),
      dictGet (hrefs.foldl (selStep baseUrl baseDomain sel) m) u =
        dictGet m u + sel.2 * (hrefs.countP (creditsTo baseUrl baseDomain u))
  | [], m => by simp
  | h :: t, m => by
    rw [List.foldl_cons, foldl_selStep_get baseUrl baseDomain sel u t _,
        selStep_get, List.countP_cons]
    by_cases hc : creditsTo baseUrl baseDomain u h
    · simp [hc]
      ring
    · simp [hc]

theorem processSelector_get (baseUrl baseDomain : Str) (doc : NavDoc)
    (m : List (Str × Int)) (sel : Str × Int) (u : Str) :
    dictGet (processSelector baseUrl baseDomain doc m sel) u =
      dictGet m u + selectorContribution baseUrl baseDomain doc u sel := by
  unfold processSelector selectorContribution
  exact foldl_selStep_get baseUrl baseDomain sel u (doc.select sel.1) m

theorem selectors_fold_get (baseUrl baseDomain : Str) (doc : NavDoc) (u : Str) :
    ∀ (sels : List (Str × Int)) (m : List (Str × Int)),
      dictGet (sels.foldl (processSelector baseUrl baseDomain doc) m) u =
        dictGet m u +
          (sels.map (selectorContribution baseUrl baseDomain doc u)).sum
  | [], m => by simp
  | s :: t, m => by
    rw [List.foldl_cons, selectors_fold_get baseUrl baseDomain doc u t _,
        processSelector_get, List.map_cons, List.sum_cons]
    ring

set_option maxHeartbeats 1000000 in
/-- C9: in the structural pass of NavDetector, a link's score is the sum,
over all selector rules, of the rule's weight times the number of anchors
that rule matches whose href normalizes to the link (bonus pass aside);
and on a homepage whose nav element contains links A and B and whose
footer also contains B, B's structural score is the nav weight plus the
footer weight, 10 + 5 = 15, while A's is 10. -/
theorem C9_theorem :
    (∀ (baseUrl : Str) (doc : NavDoc) (u : Str),
      dictGet (SELECTORS.foldl
        (processSelector baseUrl (pyUrlparse baseUrl).netloc doc) []) u =
      (SELECTORS.map
        (selectorContribution baseUrl (pyUrlparse baseUrl).netloc doc u)).sum) ∧
    (extract_nav_links (chars "https://s.com/")
      ⟨fun css =>
        if css = chars "nav a" then [chars "/alpha", chars "/beta"]
        else if css = chars "footer a" then [chars "/beta"]
        else []⟩).all_detected =
      [(chars "https://s.com/beta", 15), (chars "https://s.com/alpha", 10)] := by
  constructor
  · intro baseUrl doc u
    rw [selectors_fold_get]
    have h0 : dictGet ([] : List (Str × Int)) u = 0 := rfl
    rw [h0, zero_add]
  · decide
end NavDetector

namespace Crawler

/-- Frame of the homepage navigation-detection pass: only the navigation
fields (nav_scores, primary_nav_urls, nav_detection_done) can change. -/
theorem detect_navigation_frame (cfg : CrawlConfig) (site : Site)
    (st : CrawlState) :
    (detect_navigation_from_homepage cfg site st).url_queue = st.url_queue ∧
    (detect_navigation_from_homepage cfg site st).visited_urls =
      st.visited_urls ∧
    (detect_navigation_from_homepage cfg site st).pages = st.pages ∧
    (detect_navigation_from_homepage cfg site st).seo_rows = st.seo_rows ∧
    (detect_navigation_from_homepage cfg site st).issues = st.issues ∧
    (detect_navigation_from_homepage cfg site st).links = st.links ∧
    (detect_navigation_from_homepage cfg site st).pages_crawled =
      st.pages_crawled ∧
    (detect_navigation_from_homepage cfg site st).external_domains_crawled =
      st.external_domains_crawled ∧
    (detect_navigation_from_homepage cfg site st).next_id = st.next_id := by
  unfold detect_navigation_from_homepage
  cases hfetch : site.fetch (homepageOf cfg) with
  | exn m => simp [hfetch]
  | ok d =>
    simp only [hfetch]
    split <;> simp

/-- One loop iteration increments pages_crawled by at most one. -/
theorem crawlStep_pages_crawled_le (cfg : CrawlConfig) (site : Site)
    (st : CrawlState) :
    (crawlStep cfg site st).pages_crawled ≤ st.pages_crawled + 1 := by
  unfold crawlStep
  cases st.url_queue with
  | nil => exact Nat.le_succ _
  | cons item rest =>
    dsimp only
    split
    · exact Nat.le_succ _
    · cases site.fetch item.url with
      | exn msg => exact Nat.le_succ _
      | ok d =>
        dsimp only
        split
        · exact Nat.le_refl _
        · dsimp only
          split
          · exact Nat.le_refl _
          · exact Nat.le_refl _

/-- The loop never pushes pages_crawled above max_pages. -/
theorem crawlLoop_pages_le (cfg : CrawlConfig) (site : Site) :
    ∀ (fuel : Nat) (st : CrawlState),
      st.pages_crawled ≤ cfg.max_pages →
      (crawlLoop cfg site fuel st).pages_crawled ≤ cfg.max_pages
  | 0, _, h => h
  | fuel + 1, st, h => by
    unfold crawlLoop
    split
    · rename_i hcond
      refine crawlLoop_pages_le cfg site fuel _ ?_
      have hstep := crawlStep_pages_crawled_le cfg site st
      omega
    · exact h
end Crawler


set_option maxHeartbeats 4000000 in
set_option maxRecDepth 10000 in
/-- C2: pages_crawled never exceeds max_pages: for every crawl
configuration, site behaviour and fuel, the run of Crawler.start ends
with pages_crawled at most max_pages; and the concrete crawl with
max_pages = 5 of a site whose homepage links to 100 reachable pages
terminates with pages_crawled = 5. -/
theorem C2_theorem :
    (∀ (cfg : Crawler.CrawlConfig) (site : Crawler.Site) (fuel : Nat),
      (Crawler.start cfg site fuel).pages_crawled ≤ cfg.max_pages) ∧
    (Crawler.start Crawler.cfgC2 Crawler.siteC2 40).pages_crawled = 5 := by
  constructor
  · intro cfg site fuel
    unfold Crawler.start
    apply Crawler.crawlLoop_pages_le
    split
    · unfold Crawler.process_robots_and_sitemaps
      have hf := (Crawler.detect_navigation_frame cfg site
        Crawler.initState).2.2.2.2.2.2.1
      show (Crawler.detect_navigation_from_homepage cfg site
        Crawler.initState).pages_crawled ≤ cfg.max_pages
      rw [hf]
      exact Nat.zero_le _
    · have hf := (Crawler.detect_navigation_frame cfg site
        Crawler.initState).2.2.2.2.2.2.1
      show (Crawler.detect_navigation_from_homepage cfg site
        Crawler.initState).pages_crawled ≤ cfg.max_pages
      rw [hf]
      exact Nat.zero_le _
  · decide

namespace Crawler

theorem rowUrl_savePageRow (crawl_id : Nat) (page : PageObj)
    (seo : Option SeoMeta) (nav_score : Int) (depth : Nat) :
    rowUrl (savePageRow crawl_id page seo nav_score depth) = page.url := rfl

theorem rowUrl_errorPageRow (crawl_id page_id : Nat) (url msg : Str) :
    rowUrl (errorPageRow crawl_id page_id url msg) = url := rfl

theorem nodup_concat {α : Type} {l : List α} {x : α} (hl : l.Nodup)
    (hx : x ∉ l) : (l ++ [x]).Nodup := by
  rw [List.nodup_append]
  exact ⟨hl, List.nodup_singleton x,
    fun a ha hb => hx ((List.mem_singleton.mp hb) ▸ ha)⟩

theorem pagesInv_append {st : CrawlState} (h : PagesInv st)
    {row : PageRow} {normalized : Str}
    (hrow : normalize_url (rowUrl row) = normalized)
    (hnot : normalized ∉ st.visited_urls) :
    ((st.pages ++ [row]).map (fun r => normalize_url (rowUrl r))).Nodup ∧
    ∀ r ∈ st.pages ++ [row],
      normalize_url (rowUrl r) ∈ normalized :: st.visited_urls := by
  constructor
  · rw [List.map_append]
    refine nodup_concat h.1 ?_
    intro hmem
    rcases List.mem_map.mp hmem with ⟨r, hr, he⟩
    simp only [List.map_cons, List.map_nil] at he
    exact hnot (by
      have := h.2 r hr
      rw [he, hrow] at this
      exact this)
  · intro r hr
    rcases List.mem_append.mp hr with hold | hnew
    · exact List.mem_cons_of_mem _ (h.2 r hold)
    · rw [List.mem_singleton.mp hnew, hrow]
      exact List.mem_cons_self _ _

/-- One loop iteration preserves the uniqueness invariant: a page row is
only persisted for a URL whose normalized form was not yet visited, and
that form enters the visited set in the same iteration. -/
theorem crawlStep_pagesInv (cfg : CrawlConfig) (site : Site)
    (st : CrawlState) (h : PagesInv st) : PagesInv (crawlStep cfg site st) := by
  unfold crawlStep
  cases st.url_queue with
  | nil => exact h
  | cons item rest =>
    dsimp only
    split
    · exact h
    · rename_i hnotvis
      cases site.fetch item.url with
      | exn msg =>
        exact pagesInv_append h (by rw [rowUrl_errorPageRow]) hnotvis
      | ok d =>
        dsimp only
        split
        · exact pagesInv_append h (by rw [rowUrl_savePageRow]; rfl) hnotvis
        · split
          · exact pagesInv_append h (by rw [rowUrl_savePageRow]; rfl) hnotvis
          · exact pagesInv_append h (by rw [rowUrl_savePageRow]; rfl) hnotvis

theorem crawlLoop_pagesInv (cfg : CrawlConfig) (site : Site) :
    ∀ (fuel : Nat) (st : CrawlState), PagesInv st →
      PagesInv (crawlLoop cfg site fuel st)
  | 0, _, h => h
  | fuel + 1, st, h => by
    unfold crawlLoop
    split
    · exact crawlLoop_pagesInv cfg site fuel _ (crawlStep_pagesInv cfg site st h)
    · exact h
end Crawler


/-- A state with no persisted pages satisfies the uniqueness
invariant. -/
theorem Crawler.pagesInv_of_pages_nil (st : Crawler.CrawlState)
    (h : st.pages = []) : Crawler.PagesInv st := by
  unfold Crawler.PagesInv
  rw [h]
  exact ⟨by simp, fun r hr => absurd hr (List.not_mem_nil r)⟩

/-- C1: across every crawl, no two persisted page rows share the same
normalized URL (the frontier loop normalizes each popped URL, skips it
when its normalized form is already visited, and marks it visited before
fetching, so each normalized URL is fetched and persisted at most
once). -/
theorem C1_theorem (cfg : Crawler.CrawlConfig) (site : Crawler.Site)
    (fuel : Nat) :
    ((Crawler.start cfg site fuel).pages.map
      (fun r => Crawler.normalize_url (Crawler.rowUrl r))).Nodup := by
  unfold Crawler.start
  refine (Crawler.crawlLoop_pagesInv cfg site fuel _ ?_).1
  apply Crawler.pagesInv_of_pages_nil
  have hp : (Crawler.detect_navigation_from_homepage cfg site
      Crawler.initState).pages = [] :=
    (Crawler.detect_navigation_frame cfg site Crawler.initState).2.2.1
  by_cases hr : cfg.respect_robots_txt = true
  · simp only [hr, if_true]
    exact hp
  · simp only [hr, if_false]
    exact hp

namespace Crawler

/-- The external-domain budget decision of _extract_and_process_links:
for an external candidate link, a link is enqueued only when its host is
already among the external domains crawled or that set is strictly below
max_external_links; the host is set-added exactly when the link is
accepted; and an external link never enters the priority nav queue. -/
theorem linkStep_external_budget (cfg : CrawlConfig) (spid : Nat)
    (source_url : Str) (depth : Nat) (ns : List (Str × Int)) (pn : List Str)
    (acc : LinkAcc) (href : Str)
    (hext : (pyUrlparse (pyUrljoin source_url href)).netloc ≠
      (pyUrlparse cfg.url).netloc) :
    ((linkStep cfg spid source_url depth ns pn acc href).queue ≠ acc.queue →
      (pyUrlparse (pyUrljoin source_url href)).netloc ∈ acc.ext ∨
        acc.ext.length < cfg.max_external_links) ∧
    ((linkStep cfg spid source_url depth ns pn acc href).queue ≠ acc.queue →
      (linkStep cfg spid source_url depth ns pn acc href).ext =
        setAdd acc.ext (pyUrlparse (pyUrljoin source_url href)).netloc) ∧
    ((linkStep cfg spid source_url depth ns pn acc href).queue = acc.queue →
      (linkStep cfg spid source_url depth ns pn acc href).ext = acc.ext) ∧
    (linkStep cfg spid source_url depth ns pn acc href).nav_queue =
      acc.nav_queue := by
  unfold linkStep
  by_cases hg : startsWithL (chars "#") href ∨
      startsWithL (chars "javascript:") href
  · rw [if_pos hg]
    exact ⟨fun h => absurd rfl h, fun h => absurd rfl h, fun _ => rfl, rfl⟩
  · rw [if_neg hg]
    by_cases hfe : ¬((pyUrlparse (pyUrljoin source_url href)).netloc =
          (pyUrlparse cfg.url).netloc) ∧ cfg.follow_external_links = true ∧
        depth + 1 ≤ cfg.external_depth
    · by_cases hbl : DomainBlacklist.is_domain_blacklisted
          (pyUrljoin source_url href) = true
      · simp [hfe, hbl, hext]
      · by_cases hbb : (pyUrlparse (pyUrljoin source_url href)).netloc ∉
            acc.ext ∧ acc.ext.length ≥ cfg.max_external_links
        · simp [hfe, hbl, hbb, hext]
        · have hbb2 := hbb
          push_neg at hbb2
          simp [hfe, hbl, hbb, hext]
          by_cases hm : (pyUrlparse (pyUrljoin source_url href)).netloc ∈
              acc.ext
          · exact Or.inl hm
          · exact Or.inr (hbb2 hm)
    · have hfe2 : ¬(cfg.follow_external_links = true ∧
          depth + 1 ≤ cfg.external_depth) := fun h => hfe ⟨hext, h.1, h.2⟩
      simp [hfe2, hext]
end Crawler


set_option maxHeartbeats 4000000 in
set_option maxRecDepth 10000 in
/-- C4: for every candidate external link, the scheduler follows it only
when its host is already among the external domains crawled or that set
is strictly below the external-domain budget, the host is set-added
exactly when the link is accepted (and never to the priority nav queue);
and the concrete crawl with max_external_links = 2 against a homepage
linking to five distinct external hosts fetches exactly the first two
external domains and skips the rest. -/
theorem C4_theorem :
    (∀ (cfg : Crawler.CrawlConfig) (spid : Nat) (source_url : Str)
        (depth : Nat) (ns : List (Str × Int))
        (pn : List Str) (acc : Crawler.LinkAcc)
        (href : Str),
      (pyUrlparse (pyUrljoin source_url href)).netloc ≠
          (pyUrlparse cfg.url).netloc →
      (((Crawler.linkStep cfg spid source_url depth ns pn acc href).queue ≠
            acc.queue →
          (pyUrlparse (pyUrljoin source_url href)).netloc ∈
              acc.ext ∨
            acc.ext.length < cfg.max_external_links) ∧
        ((Crawler.linkStep cfg spid source_url depth ns pn acc href).queue ≠
            acc.queue →
          (Crawler.linkStep cfg spid source_url depth ns pn acc href).ext =
            Crawler.setAdd acc.ext
              (pyUrlparse (pyUrljoin source_url href)).netloc) ∧
        ((Crawler.linkStep cfg spid source_url depth ns pn acc href).queue =
            acc.queue →
          (Crawler.linkStep cfg spid source_url depth ns pn acc href).ext =
            acc.ext) ∧
        (Crawler.linkStep cfg spid source_url depth ns pn acc href).nav_queue =
          acc.nav_queue)) ∧
    ((Crawler.start Crawler.cfgC4 Crawler.siteC4 20).external_domains_crawled =
        [chars "e1.com", chars "e2.com"] ∧
      (Crawler.start Crawler.cfgC4 Crawler.siteC4 20).pages.map
          Crawler.rowUrl =
        [chars "http://m.com/", chars "http://e1.com/",
         chars "http://e2.com/"]) := by
  constructor
  · intro cfg spid source_url depth ns pn acc href hext
    exact Crawler.linkStep_external_budget cfg spid source_url depth ns pn
      acc href hext
  · constructor
    · decide
    · decide

/-- Witness for C4: the general budget property instantiated at the
empty accumulator and an external link of the C4 configuration. -/
theorem C4_witness :
    (pyUrlparse (pyUrljoin (chars "http://m.com/")
        (chars "http://e9.com/x"))).netloc ≠
      (pyUrlparse Crawler.cfgC4.url).netloc ∧
    (((Crawler.linkStep Crawler.cfgC4 0 (chars "http://m.com/") 0 []
          [] ⟨[], [], [], [], []⟩ (chars "http://e9.com/x")).queue ≠
          [] →
        (pyUrlparse (pyUrljoin (chars "http://m.com/")
            (chars "http://e9.com/x"))).netloc ∈
            ([] : List Str) ∨
          ([] : List Str).length <
            Crawler.cfgC4.max_external_links) ∧
      ((Crawler.linkStep Crawler.cfgC4 0 (chars "http://m.com/") 0 []
          [] ⟨[], [], [], [], []⟩ (chars "http://e9.com/x")).queue ≠
          [] →
        (Crawler.linkStep Crawler.cfgC4 0 (chars "http://m.com/") 0 []
            [] ⟨[], [], [], [], []⟩ (chars "http://e9.com/x")).ext =
          Crawler.setAdd []
            (pyUrlparse (pyUrljoin
              (chars "http://m.com/")
              (chars "http://e9.com/x"))).netloc) ∧
      ((Crawler.linkStep Crawler.cfgC4 0 (chars "http://m.com/") 0 []
          [] ⟨[], [], [], [], []⟩ (chars "http://e9.com/x")).queue =
          [] →
        (Crawler.linkStep Crawler.cfgC4 0 (chars "http://m.com/") 0 []
            [] ⟨[], [], [], [], []⟩ (chars "http://e9.com/x")).ext =
          []) ∧
      (Crawler.linkStep Crawler.cfgC4 0 (chars "http://m.com/") 0 []
          [] ⟨[], [], [], [], []⟩
          (chars "http://e9.com/x")).nav_queue = []) :=
  ⟨by decide,
    C4_theorem.1 Crawler.cfgC4 0 (chars "http://m.com/") 0 [] []
      ⟨[], [], [], [], []⟩ (chars "http://e9.com/x") (by decide)⟩

namespace Crawler

/-- The except branch of _crawl_url, as one loop iteration: a fetch
exception persists the synthetic error page (status_code 0, truncated
exception text as content summary) and one Crawl Error / high issue,
leaves pages_crawled unchanged and leaves the rest of the queue to be
processed. -/
theorem crawlStep_exn (cfg : CrawlConfig) (site : Site) (st : CrawlState)
    (item : QItem) (rest : List QItem) (msg : Str)
    (hq : st.url_queue = item :: rest)
    (hnv : normalize_url item.url ∉ st.visited_urls)
    (hf : site.fetch item.url = .exn msg) :
    (crawlStep cfg site st).pages =
      st.pages ++ [errorPageRow cfg.id st.next_id item.url msg] ∧
    rowGet (errorPageRow cfg.id st.next_id item.url msg)
      (chars "status_code") = some (.n 0) ∧
    rowGet (errorPageRow cfg.id st.next_id item.url msg)
      (chars "content_summary") =
      some (.s (chars "Failed to crawl: " ++ msg.take 200)) ∧
    (crawlStep cfg site st).issues =
      st.issues ++ [crawlErrorIssue st.next_id item.url msg] ∧
    (crawlErrorIssue st.next_id item.url msg).type = chars "Crawl Error" ∧
    (crawlErrorIssue st.next_id item.url msg).severity = chars "high" ∧
    (crawlErrorIssue st.next_id item.url msg).message =
      chars "Failed to crawl URL: " ++ msg.take 500 ∧
    (crawlStep cfg site st).pages_crawled = st.pages_crawled ∧
    (crawlStep cfg site st).url_queue = rest := by
  obtain ⟨q, vis, pages, seo, iss, links, pc, ext, ns, pn, nd, nid⟩ := st
  dsimp only at hq hnv ⊢
  subst hq
  unfold crawlStep
  dsimp only
  rw [if_neg hnv, hf]
  exact ⟨rfl, rfl, rfl, rfl, rfl, rfl, rfl, rfl, rfl⟩
end Crawler


set_option maxHeartbeats 4000000 in
set_option maxRecDepth 10000 in
/-- C5: a per-URL fetch exception persists a synthetic error page with
status_code 0 whose content summary is the truncated exception text,
persists exactly one Crawl Error issue of severity high (with the
truncated text in its message), does not increment pages_crawled, and
leaves the remaining queue to be processed; concretely, with one failing
URL among three reachable ones the crawl ends with pages_crawled = 2 and
exactly one Crawl Error issue. -/
theorem C5_theorem :
    (∀ (cfg : Crawler.CrawlConfig) (site : Crawler.Site)
        (st : Crawler.CrawlState) (item : Crawler.QItem)
        (rest : List Crawler.QItem) (msg : Str),
      st.url_queue = item :: rest →
      Crawler.normalize_url item.url ∉ st.visited_urls →
      site.fetch item.url = .exn msg →
      ((Crawler.crawlStep cfg site st).pages =
        st.pages ++
          [Crawler.errorPageRow cfg.id st.next_id item.url msg] ∧
      Crawler.rowGet (Crawler.errorPageRow cfg.id st.next_id item.url msg)
        (chars "status_code") = some (.n 0) ∧
      Crawler.rowGet (Crawler.errorPageRow cfg.id st.next_id item.url msg)
        (chars "content_summary") =
        some (.s (chars "Failed to crawl: " ++ msg.take 200)) ∧
      (Crawler.crawlStep cfg site st).issues =
        st.issues ++ [Crawler.crawlErrorIssue st.next_id item.url msg] ∧
      (Crawler.crawlErrorIssue st.next_id item.url msg).type =
        chars "Crawl Error" ∧
      (Crawler.crawlErrorIssue st.next_id item.url msg).severity =
        chars "high" ∧
      (Crawler.crawlErrorIssue st.next_id item.url msg).message =
        chars "Failed to crawl URL: " ++ msg.take 500 ∧
      (Crawler.crawlStep cfg site st).pages_crawled = st.pages_crawled ∧
      (Crawler.crawlStep cfg site st).url_queue = rest)) ∧
    ((Crawler.start Crawler.cfgC5 Crawler.siteC5 20).pages_crawled = 2 ∧
      ((Crawler.start Crawler.cfgC5 Crawler.siteC5 20).issues.filter
        (fun i => decide (i.type = chars "Crawl Error"))).length = 1) := by
  constructor
  · intro cfg site st item rest msg hq hnv hf
    exact Crawler.crawlStep_exn cfg site st item rest msg hq hnv hf
  · constructor
    · decide
    · decide

/-- Witness for C5: the general exception-branch property instantiated
at a fresh state whose queue holds the failing URL of the C5 site. -/
theorem C5_witness :
    ({ Crawler.initState with url_queue :=
        [⟨chars "http://s5.com/a", 1, none, 0, false⟩]
      } : Crawler.CrawlState).url_queue =
      ⟨chars "http://s5.com/a", 1, none, 0, false⟩ :: [] ∧
    Crawler.normalize_url (chars "http://s5.com/a") ∉
      ({ Crawler.initState with url_queue :=
        [⟨chars "http://s5.com/a", 1, none, 0, false⟩]
      } : Crawler.CrawlState).visited_urls ∧
    Crawler.siteC5.fetch (chars "http://s5.com/a") = .exn (chars "boom") ∧
    ((Crawler.crawlStep Crawler.cfgC5 Crawler.siteC5
        { Crawler.initState with url_queue :=
          [⟨chars "http://s5.com/a", 1, none, 0, false⟩] }).pages =
      [Crawler.errorPageRow 1 0 (chars "http://s5.com/a") (chars "boom")] ∧
    Crawler.rowGet
      (Crawler.errorPageRow 1 0 (chars "http://s5.com/a") (chars "boom"))
      (chars "status_code") = some (.n 0) ∧
    Crawler.rowGet
      (Crawler.errorPageRow 1 0 (chars "http://s5.com/a") (chars "boom"))
      (chars "content_summary") =
      some (.s (chars "Failed to crawl: " ++ (chars "boom").take 200)) ∧
    (Crawler.crawlStep Crawler.cfgC5 Crawler.siteC5
        { Crawler.initState with url_queue :=
          [⟨chars "http://s5.com/a", 1, none, 0, false⟩] }).issues =
      [Crawler.crawlErrorIssue 0 (chars "http://s5.com/a") (chars "boom")] ∧
    (Crawler.crawlErrorIssue 0 (chars "http://s5.com/a")
        (chars "boom")).type = chars "Crawl Error" ∧
    (Crawler.crawlErrorIssue 0 (chars "http://s5.com/a")
        (chars "boom")).severity = chars "high" ∧
    (Crawler.crawlErrorIssue 0 (chars "http://s5.com/a")
        (chars "boom")).message =
      chars "Failed to crawl URL: " ++ (chars "boom").take 500 ∧
    (Crawler.crawlStep Crawler.cfgC5 Crawler.siteC5
        { Crawler.initState with url_queue :=
          [⟨chars "http://s5.com/a", 1, none, 0, false⟩] }).pages_crawled =
      0 ∧
    (Crawler.crawlStep Crawler.cfgC5 Crawler.siteC5
        { Crawler.initState with url_queue :=
          [⟨chars "http://s5.com/a", 1, none, 0, false⟩] }).url_queue =
      []) :=
  ⟨rfl, by decide, rfl,
    C5_theorem.1 Crawler.cfgC5 Crawler.siteC5
      { Crawler.initState with url_queue :=
        [⟨chars "http://s5.com/a", 1, none, 0, false⟩] }
      ⟨chars "http://s5.com/a", 1, none, 0, false⟩ [] (chars "boom")
      rfl (by decide) rfl⟩

set_option maxHeartbeats 1000000 in
/-- C7: duplicate-title detection de-duplicates pages by normalized URL
(www. stripped, domain lowercased, trailing slash stripped) before
counting: the www/non-www pair titled Foo yields no issue, while two
distinct paths titled Foo yield exactly one issue counting 2 pages. -/
theorem C7_theorem :
    IssueDetector.normalize_url_for_comparison
      (chars "https://www.X.com/a/") = chars "https://x.com/a" ∧
    IssueDetector.detect_duplicate_titles
      [⟨some (chars "Foo"), chars "https://x.com/a"⟩,
       ⟨some (chars "Foo"), chars "https://www.x.com/a"⟩] = [] ∧
    IssueDetector.detect_duplicate_titles
      [⟨some (chars "Foo"), chars "https://x.com/a"⟩,
       ⟨some (chars "Foo"), chars "https://x.com/b"⟩] =
      [{ page_id := none
         type := chars "SEO - Duplicate Title Tag"
         severity := chars "high"
         message := chars "Title " ++ [39] ++ chars "Foo" ++ [39] ++
           chars " is used on 2 pages. Create unique, descriptive titles for each page to improve search rankings."
         context := chars "https://x.com/a, https://x.com/b"
         pointer := some (chars "Foo") }] := by
  refine ⟨by decide, by decide, by decide⟩

namespace Crawler

theorem rowGetPsb_savePageRow (crawl_id : Nat) (page : PageObj)
    (seo : Option SeoMeta) (nav_score : Int) (depth : Nat) :
    rowGet (savePageRow crawl_id page seo nav_score depth)
      (chars "page_size_bytes") = none := rfl

theorem rowGetPsb_errorPageRow (crawl_id page_id : Nat) (url msg : Str) :
    rowGet (errorPageRow crawl_id page_id url msg)
      (chars "page_size_bytes") = none := rfl

theorem noPsb_append {st : CrawlState} (h : NoPsb st) {row : PageRow}
    (hrow : rowGet row (chars "page_size_bytes") = none) :
    ∀ r ∈ st.pages ++ [row], rowGet r (chars "page_size_bytes") = none := by
  intro r hr
  rcases List.mem_append.mp hr with h1 | h2
  · exact h r h1
  · rw [List.mem_singleton.mp h2]
    exact hrow

theorem crawlStep_noPsb (cfg : CrawlConfig) (site : Site) (st : CrawlState)
    (h : NoPsb st) : NoPsb (crawlStep cfg site st) := by
  unfold crawlStep
  cases st.url_queue with
  | nil => exact h
  | cons item rest =>
    dsimp only
    split
    · exact h
    · cases site.fetch item.url with
      | exn msg => exact noPsb_append h (rowGetPsb_errorPageRow _ _ _ _)
      | ok d =>
        dsimp only
        split
        · exact noPsb_append h (rowGetPsb_savePageRow _ _ _ _ _)
        · split
          · exact noPsb_append h (rowGetPsb_savePageRow _ _ _ _ _)
          · exact noPsb_append h (rowGetPsb_savePageRow _ _ _ _ _)

theorem crawlLoop_noPsb (cfg : CrawlConfig) (site : Site) :
    ∀ (fuel : Nat) (st : CrawlState), NoPsb st →
      NoPsb (crawlLoop cfg site fuel st)
  | 0, _, h => h
  | fuel + 1, st, h => by
    unfold crawlLoop
    split
    · exact crawlLoop_noPsb cfg site fuel _ (crawlStep_noPsb cfg site st h)
    · exact h

theorem noPsb_of_pages_nil (st : CrawlState) (h : st.pages = []) :
    NoPsb st := by
  unfold NoPsb
  rw [h]
  exact fun r hr => absurd hr (List.not_mem_nil r)
end Crawler


theorem IssueDetector.detect_large_pages_nil {pages : List Crawler.PageRow}
    (h : ∀ r ∈ pages, Crawler.rowGet r (chars "page_size_bytes") = none) :
    IssueDetector.detect_large_pages pages = [] := by
  unfold IssueDetector.detect_large_pages
  have hf : pages.filter IssueDetector.largePageB = [] := by
    rw [List.filter_eq_nil_iff]
    intro a ha
    unfold IssueDetector.largePageB
    rw [h a ha]
    simp
  rw [hf]
  rfl

/-- C8: the post-crawl large-page detector can never fire on a crawl of
this engine: every page row the crawler persists stores its size under
content_length and carries no page_size_bytes column, while
_detect_large_pages reads only page_size_bytes, so even a 4 MB page
yields no Performance - Large Page Size issue. -/
theorem C8_theorem :
    (∀ (cfg : Crawler.CrawlConfig) (site : Crawler.Site) (fuel : Nat),
      IssueDetector.detect_large_pages (Crawler.start cfg site fuel).pages =
        []) ∧
    Crawler.rowGet (Crawler.savePageRow 1 Crawler.pageBig none 0 0)
      (chars "page_size_bytes") = none ∧
    Crawler.rowGet (Crawler.savePageRow 1 Crawler.pageBig none 0 0)
      (chars "content_length") = some (.n (4 * 1024 * 1024)) := by
  refine ⟨?_, by decide, by decide⟩
  intro cfg site fuel
  apply IssueDetector.detect_large_pages_nil
  unfold Crawler.start
  refine Crawler.crawlLoop_noPsb cfg site fuel _ ?_
  apply Crawler.noPsb_of_pages_nil
  have hp : (Crawler.detect_navigation_from_homepage cfg site
      Crawler.initState).pages = [] :=
    (Crawler.detect_navigation_frame cfg site Crawler.initState).2.2.1
  by_cases hr : cfg.respect_robots_txt = true
  · simp only [hr, if_true]
    exact hp
  · simp only [hr, if_false]
    exact hp

/-- C10: the pre-crawl homepage navigation-detection pass only writes
the navigation state: the queue, visited set, pages, seo rows, issues,
links, pages_crawled, external_domains_crawled and the id counter are
unchanged; on a fetch failure even nav_scores and primary_nav_urls are
unchanged (only nav_detection_done is set), so a crawl started on a
failing homepage proceeds with an empty structural score map; and the
start URL is never pre-marked visited, so the homepage is still
eligible for the main loop. -/
theorem C10_theorem :
    (∀ (cfg : Crawler.CrawlConfig) (site : Crawler.Site)
        (st : Crawler.CrawlState),
      (Crawler.detect_navigation_from_homepage cfg site st).url_queue =
        st.url_queue ∧
      (Crawler.detect_navigation_from_homepage cfg site st).visited_urls =
        st.visited_urls ∧
      (Crawler.detect_navigation_from_homepage cfg site st).pages =
        st.pages ∧
      (Crawler.detect_navigation_from_homepage cfg site st).seo_rows =
        st.seo_rows ∧
      (Crawler.detect_navigation_from_homepage cfg site st).issues =
        st.issues ∧
      (Crawler.detect_navigation_from_homepage cfg site st).links =
        st.links ∧
      (Crawler.detect_navigation_from_homepage cfg site st).pages_crawled =
        st.pages_crawled ∧
      (Crawler.detect_navigation_from_homepage cfg site
          st).external_domains_crawled = st.external_domains_crawled ∧
      (Crawler.detect_navigation_from_homepage cfg site st).next_id =
        st.next_id) ∧
    (∀ (cfg : Crawler.CrawlConfig) (site : Crawler.Site)
        (st : Crawler.CrawlState) (msg : Str),
      site.fetch (Crawler.homepageOf cfg) = .exn msg →
      ((Crawler.detect_navigation_from_homepage cfg site st).nav_scores =
        st.nav_scores ∧
      (Crawler.detect_navigation_from_homepage cfg site st).primary_nav_urls =
        st.primary_nav_urls ∧
      (Crawler.detect_navigation_from_homepage cfg site
          st).nav_detection_done = true)) ∧
    (∀ (cfg : Crawler.CrawlConfig) (site : Crawler.Site),
      Crawler.normalize_url cfg.url ∉
        (Crawler.detect_navigation_from_homepage cfg site
          Crawler.initState).visited_urls) := by
  refine ⟨?_, ?_, ?_⟩
  · intro cfg site st
    exact Crawler.detect_navigation_frame cfg site st
  · intro cfg site st msg hf
    unfold Crawler.detect_navigation_from_homepage
    simp only [hf]
    exact ⟨trivial, trivial, trivial⟩
  · intro cfg site
    have hv := (Crawler.detect_navigation_frame cfg site
      Crawler.initState).2.1
    rw [hv]
    exact List.not_mem_nil _

/-- Witness for C10: the failure-case conjunct instantiated at a site
whose homepage fetch raises. -/
theorem C10_witness :
    Crawler.siteFail.fetch (Crawler.homepageOf Crawler.cfgC5) =
      .exn (chars "down") ∧
    ((Crawler.detect_navigation_from_homepage Crawler.cfgC5
        Crawler.siteFail Crawler.initState).nav_scores = [] ∧
    (Crawler.detect_navigation_from_homepage Crawler.cfgC5
        Crawler.siteFail Crawler.initState).primary_nav_urls = [] ∧
    (Crawler.detect_navigation_from_homepage Crawler.cfgC5
        Crawler.siteFail Crawler.initState).nav_detection_done = true) :=
  ⟨rfl,
    C10_theorem.2.1 Crawler.cfgC5 Crawler.siteFail Crawler.initState
      (chars "down") rfl⟩

namespace Crawler

/-- Counting the elements whose image under an injective-on-the-list map
falls in a reference list is bounded by that list's length. -/
theorem countP_mem_le {α β : Type} [DecidableEq β] (f : α → β) :
    ∀ (l : List α) (s : List β), (l.map f).Nodup →
      l.countP (fun p => decide (f p ∈ s)) ≤ s.length
  | [], s, _ => by simp
  | x :: t, s, h => by
    rw [List.map_cons, List.nodup_cons] at h
    rw [List.countP_cons]
    by_cases hm : f x ∈ s
    · have hcongr : t.countP (fun p => decide (f p ∈ s)) =
          t.countP (fun p => decide (f p ∈ s.erase (f x))) := by
        apply List.countP_congr
        intro a ha
        have hne : f a ≠ f x := by
          intro he
          exact h.1 (he ▸ List.mem_map_of_mem f ha)
        simp [List.mem_erase_of_ne hne]
      have hrec := countP_mem_le f t (s.erase (f x)) h.2
      rw [hcongr]
      have hlen := List.length_erase_of_mem hm
      have hpos : 1 ≤ s.length := List.length_pos.mpr (fun hs => by
        rw [hs] at hm; exact List.not_mem_nil _ hm)
      simp only [hm]
      simp only [decide_True, if_true]
      omega
    · have hrec := countP_mem_le f t s h.2
      simp [hm]
      omega

/-- The hard cap: with pairwise-distinct page ids, at most 15 rows end
up primary. -/
theorem finalize_cap (start : Str) (pages : List FinRow)
    (h : (pages.map FinRow.id).Nodup) :
    ((finalize_primary_pages start pages).filter
      (fun p => p.is_primary)).length ≤ 15 := by
  unfold finalize_primary_pages
  rw [List.filter_map, List.length_map, ← List.countP_eq_length_filter]
  refine le_trans (countP_mem_le FinRow.id pages _ h) ?_
  rw [List.length_map]
  exact List.length_take_le _ _

/-- Re-running the finalizer changes nothing: candidate selection reads
no is_primary value and the final map overwrites every one. -/
theorem finalize_idem (start : Str) (pages : List FinRow) :
    finalize_primary_pages start (finalize_primary_pages start pages) =
      finalize_primary_pages start pages := by
  unfold finalize_primary_pages
  simp only [List.length_map, List.filterMap_map, List.map_map]
  rfl

/-- Amended single-page behaviour: one persisted page on the start
domain whose path and query match no exclusion pattern is marked
primary. -/
theorem finalize_single (start : Str) (p : FinRow)
    (hdom : (pyUrlparse p.url).netloc = (pyUrlparse start).netloc)
    (hpath : matchesExcl (lowerStr (pyUrlparse p.url).path) = false)
    (hq : (pyUrlparse p.url).query ≠ [] →
      matchesExcl (ch '?' :: (pyUrlparse p.url).query) = false) :
    (finalize_primary_pages start [p]).map (fun q => q.is_primary) =
      [true] := by
  unfold finalize_primary_pages
  have hc : candOf (pyUrlparse start).netloc 1 p =
      some ⟨p.id, p.url, p.nav_score, p.depth,
        decide ((lowerStr (pyUrlparse p.url).path = [] ∨
          lowerStr (pyUrlparse p.url).path = [ch '/']) ∧
          (pyUrlparse p.url).query = [])⟩ := by
    unfold candOf
    rw [if_neg (fun hne => hne hdom)]
    rw [if_neg (by rw [hpath]; exact Bool.false_ne_true)]
    have hqq : (decide ((pyUrlparse p.url).query ≠ []) &&
        matchesExcl (ch '?' :: (pyUrlparse p.url).query)) = false := by
      by_cases hq0 : (pyUrlparse p.url).query = []
      · simp [hq0]
      · simp [hq0, hq hq0]
    rw [if_neg (by rw [hqq]; exact Bool.false_ne_true)]
    rw [if_pos (by simp)]
  simp only [List.filterMap, hc]
  simp [candSort, candInsert]
  rw [hc]
  simp [candSort, candInsert]
end Crawler


/-- C6 counterexample: a crawl that persisted exactly one page, at
/privacy on the crawl's own domain, ends with that page not primary —
the exclusion patterns run before the very-small-site rule, so the
claim that a single-page crawl always marks its page primary is false
on the code. -/
theorem C6_counterexample :
    (Crawler.finalize_primary_pages (chars "https://x.com")
      [⟨1, chars "https://x.com/privacy", 0, false, 0⟩]).map
      (fun q => q.is_primary) = [false] := by decide

/-- C6 (amended): with pairwise-distinct page ids the finalizer marks
at most 15 pages primary; a re-run is a no-op; and a crawl that
persisted exactly one page marks it primary provided the page is on the
start domain and matches no exclusion pattern in path or query. -/
theorem C6_theorem :
    (∀ (start : Str) (pages : List Crawler.FinRow),
      (pages.map Crawler.FinRow.id).Nodup →
      ((Crawler.finalize_primary_pages start pages).filter
        (fun p => p.is_primary)).length ≤ 15) ∧
    (∀ (start : Str) (pages : List Crawler.FinRow),
      Crawler.finalize_primary_pages start
        (Crawler.finalize_primary_pages start pages) =
        Crawler.finalize_primary_pages start pages) ∧
    (∀ (start : Str) (p : Crawler.FinRow),
      (pyUrlparse p.url).netloc = (pyUrlparse start).netloc →
      Crawler.matchesExcl (lowerStr (pyUrlparse p.url).path) = false →
      ((pyUrlparse p.url).query ≠ [] →
        Crawler.matchesExcl (ch '?' :: (pyUrlparse p.url).query) = false) →
      (Crawler.finalize_primary_pages start [p]).map
        (fun q => q.is_primary) = [true]) :=
  ⟨fun start pages h => Crawler.finalize_cap start pages h,
   fun start pages => Crawler.finalize_idem start pages,
   fun start p hdom hpath hq => Crawler.finalize_single start p hdom hpath hq⟩

/-- Witness for C6: the cap at a concrete two-row table with distinct
ids, and the amended single-page property at a concrete root page. -/
theorem C6_witness :
    (([⟨1, chars "https://x.com/", 9, false, 0⟩,
       ⟨2, chars "https://x.com/about", 9, false, 0⟩] :
        List Crawler.FinRow).map Crawler.FinRow.id).Nodup ∧
    ((Crawler.finalize_primary_pages (chars "https://x.com")
      [⟨1, chars "https://x.com/", 9, false, 0⟩,
       ⟨2, chars "https://x.com/about", 9, false, 0⟩]).filter
      (fun p => p.is_primary)).length ≤ 15 ∧
    (pyUrlparse (chars "https://x.com/")).netloc =
      (pyUrlparse (chars "https://x.com")).netloc ∧
    Crawler.matchesExcl
      (lowerStr (pyUrlparse (chars "https://x.com/")).path) = false ∧
    ((pyUrlparse (chars "https://x.com/")).query ≠ [] →
      Crawler.matchesExcl
        (ch '?' :: (pyUrlparse (chars "https://x.com/")).query) = false) ∧
    (Crawler.finalize_primary_pages (chars "https://x.com")
      [⟨1, chars "https://x.com/", 9, false, 0⟩]).map
      (fun q => q.is_primary) = [true] :=
  ⟨by decide,
   C6_theorem.1 (chars "https://x.com")
     [⟨1, chars "https://x.com/", 9, false, 0⟩,
      ⟨2, chars "https://x.com/about", 9, false, 0⟩] (by decide),
   by decide, by decide, by decide,
   C6_theorem.2.2 (chars "https://x.com")
     ⟨1, chars "https://x.com/", 9, false, 0⟩
     (by decide) (by decide) (by decide)⟩
